import Mathlib

/-!
Verification development for the axiom-ebpf repository: shallow embeddings of
the physical frame allocator, the SHA3-256 hash, the signed-program envelope,
the JIT/interpreter execution path, the syscall entry point, the attach-point
registries and the ring-buffer consumer, together with theorems settling the
frozen specification claims.

Machine integers are embedded as `Nat` (or `Int` for signed fields) with
explicit reduction modulo `2 ^ w` where the Rust code relies on wrapping;
fallible operations return `Option` or `Except`.
-/

set_option maxHeartbeats 1000000
set_option maxRecDepth 10000

namespace Signing

/-- 64-bit mask used to keep lane values inside `u64` range. -/
def mask64 : Nat := 0xFFFFFFFFFFFFFFFF

/-- `u64::rotate_left` embedded on `Nat` (values kept below `2 ^ 64`). -/
def rotl64 (x n : Nat) : Nat :=
  ((x <<< n) ||| (x >>> (64 - n))) &&& mask64

/-- Bitwise complement on 64 bits (`!x` on `u64`). -/
def not64 (x : Nat) : Nat := x ^^^ mask64

/-- Keccak round constants (`RC` in `signing/hash.rs`). -/
def RC : List Nat :=
  [0x0000000000000001, 0x0000000000008082, 0x800000000000808a, 0x8000000080008000,
   0x000000000000808b, 0x0000000080000001, 0x8000000080008081, 0x8000000000008009,
   0x000000000000008a, 0x0000000000000088, 0x0000000080008009, 0x000000008000000a,
   0x000000008000808b, 0x800000000000008b, 0x8000000000008089, 0x8000000000008003,
   0x8000000000008002, 0x8000000000000080, 0x000000000000800a, 0x800000008000000a,
   0x8000000080008081, 0x8000000000008080, 0x0000000080000001, 0x8000000080008008]

/-- Keccak rotation offsets (`ROTC` in `signing/hash.rs`). -/
def ROTC : List Nat :=
  [1, 3, 6, 10, 15, 21, 28, 36, 45, 55, 2, 14, 27, 41, 56, 8, 25, 43, 62, 18, 39, 61, 20, 44]

/-- Keccak lane permutation indices (`PILN` in `signing/hash.rs`). -/
def PILN : List Nat :=
  [10, 7, 11, 17, 18, 3, 5, 16, 8, 21, 24, 4, 15, 23, 19, 13, 12, 2, 20, 14, 22, 9, 6, 1]

/-- Theta step of `keccak_f`. -/
def theta (s : List Nat) : List Nat :=
  let c := (List.range 5).map fun x =>
    s.getD x 0 ^^^ s.getD (x + 5) 0 ^^^ s.getD (x + 10) 0 ^^^ s.getD (x + 15) 0 ^^^
      s.getD (x + 20) 0
  let d := (List.range 5).map fun x =>
    c.getD ((x + 4) % 5) 0 ^^^ rotl64 (c.getD ((x + 1) % 5) 0) 1
  (List.range 25).map fun i => s.getD i 0 ^^^ d.getD (i % 5) 0

/-- Rho-and-pi step of `keccak_f`: the sequential lane rotation chain. -/
def rhoPi (s : List Nat) : List Nat :=
  let step := fun (acc : List Nat × Nat) (i : Nat) =>
    let j := PILN.getD i 0
    let temp := acc.1.getD j 0
    (acc.1.set j (rotl64 acc.2 (ROTC.getD i 0)), temp)
  ((List.range 24).foldl step (s, s.getD 1 0)).1

/-- Chi step of `keccak_f`. -/
def chi (s : List Nat) : List Nat :=
  (List.range 25).map fun i =>
    let x := i % 5
    let y5 := i - x
    s.getD i 0 ^^^ (not64 (s.getD ((x + 1) % 5 + y5) 0) &&& s.getD ((x + 2) % 5 + y5) 0)

/-- One Keccak round: theta, rho-pi, chi, iota with the given round constant. -/
def keccakRound (s : List Nat) (rc : Nat) : List Nat :=
  let s := chi (rhoPi (theta s))
  s.set 0 (s.getD 0 0 ^^^ rc)

/-- The `keccak_f` permutation over the 25-lane state (24 rounds). -/
def keccakF (s : List Nat) : List Nat := RC.foldl keccakRound s

/-- Read a little-endian `u64` from a byte list (`u64::from_le_bytes`). -/
def leU64 (l : List Nat) : Nat := l.foldr (fun b acc => b + 256 * acc) 0

/-- Write a `u64` as 8 little-endian bytes (`u64::to_le_bytes`). -/
def u64ToLe (x : Nat) : List Nat :=
  (List.range 8).map fun i => x >>> (8 * i) &&& 0xFF

/-- XOR one 136-byte rate block into the state lanes and permute (absorb step). -/
def absorbBlock (s : List Nat) (block : List Nat) : List Nat :=
  keccakF <| (List.range 17).foldl
    (fun s i => s.set i (s.getD i 0 ^^^ leU64 ((block.drop (8 * i)).take 8))) s

/-- Absorb all complete 136-byte blocks in order, returning the state and the
remaining tail (the absorb-phase `while` loop of `keccak256`). -/
def absorbAll (s : List Nat) (data : List Nat) : List Nat × List Nat :=
  let nblocks := data.length / 136
  ((List.range nblocks).foldl
      (fun s k => absorbBlock s ((data.drop (136 * k)).take 136)) s,
    data.drop (136 * nblocks))

/-- Build the final padded block: domain separator `0x06`, final byte OR `0x80`
(`signing/hash.rs`, padding section; `rest` has fewer than 136 bytes). -/
def padBlock (rest : List Nat) : List Nat :=
  let p := rest ++ 0x06 :: List.replicate (135 - rest.length) 0
  p.set 135 (p.getD 135 0 ||| 0x80)

/-- `keccak256` from `signing/hash.rs`: SHA3-256 over a byte list. -/
def keccak256 (data : List Nat) : List Nat :=
  let start : List Nat := List.replicate 25 0
  let (s, rest) := absorbAll start data
  let s := absorbBlock s (padBlock rest)
  (List.range 4).flatMap fun i => u64ToLe (s.getD i 0)

namespace ProgramHash

/-- `ProgramHash::compute` from `signing/hash.rs`: SHA3-256 of the data. -/
def compute (data : List Nat) : List Nat := keccak256 data

end ProgramHash

/-- Magic bytes `RBPF` (`SIGNED_PROGRAM_MAGIC` in `signing/mod.rs`). -/
def SIGNED_PROGRAM_MAGIC : List Nat := [0x52, 0x42, 0x50, 0x46]

/-- Current signing format version (`SIGNING_VERSION` in `signing/mod.rs`). -/
def SIGNING_VERSION : Nat := 1

/-- Total header size before program data (`HEADER_SIZE` in `signing/signature.rs`). -/
def HEADER_SIZE : Nat := 4 + 1 + 1 + 2 + 32 + 64 + 8 + 8

/-- Errors from `signing/error.rs` that the header parser can produce. -/
inductive SigningError where
  | DataTooShort (expected actual : Nat)
  | InvalidMagic
  | UnsupportedVersion (v : Nat)
  | HashMismatch
  | InvalidSignature
deriving DecidableEq, Repr

/-- `SignedProgramHeader` from `signing/signature.rs`. Bytes are `Nat` values;
`SignatureFlags` is its raw byte, `ProgramHash`/`Signature`/signer id are byte
lists of length 32 / 64 / 8 in any well-formed value. -/
structure SignedProgramHeader where
  version : Nat
  flags : Nat
  program_hash : List Nat
  signature : List Nat
  signer_id : List Nat
  timestamp : Nat
deriving DecidableEq, Repr

namespace SignedProgramHeader

/-- Field widths enforced by the Rust types (`u8`, `[u8; 32]`, `[u8; 64]`,
`[u8; 8]`, `u64`). -/
def WF (h : SignedProgramHeader) : Prop :=
  h.version < 256 ∧ h.flags < 256 ∧
  h.program_hash.length = 32 ∧ h.signature.length = 64 ∧ h.signer_id.length = 8 ∧
  h.timestamp < 2 ^ 64

instance (h : SignedProgramHeader) : Decidable h.WF := by
  unfold WF
  infer_instance

/-- `SignedProgramHeader::from_bytes` from `signing/signature.rs`. -/
def fromBytes (data : List Nat) : Except SigningError SignedProgramHeader :=
  if data.length < HEADER_SIZE then
    .error (.DataTooShort HEADER_SIZE data.length)
  else if data.take 4 ≠ SIGNED_PROGRAM_MAGIC then
    .error .InvalidMagic
  else
    let version := data.getD 4 0
    if version ≠ SIGNING_VERSION then
      .error (.UnsupportedVersion version)
    else
      let flags := data.getD 5 0
      -- `ProgramHash::from_slice` / `Signature::from_slice` fail only when the
      -- slice length is wrong (mapped to HashMismatch / InvalidSignature).
      let program_hash := (data.drop 8).take 32
      if program_hash.length ≠ 32 then .error .HashMismatch
      else
        let signature := (data.drop 40).take 64
        if signature.length ≠ 64 then .error .InvalidSignature
        else
          let signer_id := (data.drop 104).take 8
          let timestamp := leU64 ((data.drop 112).take 8)
          .ok ⟨version, flags, program_hash, signature, signer_id, timestamp⟩

/-- `SignedProgramHeader::to_bytes` from `signing/signature.rs`: the fields laid
out at their fixed offsets (reserved bytes 6-7 zero). -/
def toBytes (h : SignedProgramHeader) : List Nat :=
  SIGNED_PROGRAM_MAGIC ++ [h.version, h.flags, 0, 0] ++
    h.program_hash ++ h.signature ++ h.signer_id ++ u64ToLe h.timestamp

end SignedProgramHeader

end Signing

namespace Attach

/-- `AttachId` from `attach/mod.rs` (a `u32` newtype). -/
structure AttachId where
  val : Nat
deriving DecidableEq, Repr

/-- Attach errors relevant to the registries (`attach/mod.rs`). -/
inductive AttachError where
  | InvalidTarget (target : List Nat)
  | ResourceNotFound
deriving DecidableEq, Repr

/-- Registry state of `PwmAttach` from `attach/pwm.rs`: chip name and channel
are carried opaquely; `attached` is the list of bound ids, `next_id` the
monotonic counter. -/
structure PwmAttach where
  chip : List Nat
  channel : Nat
  attached : List AttachId
  next_id : Nat
deriving DecidableEq, Repr

namespace PwmAttach

/-- `PwmAttach::new` from `attach/pwm.rs` (chip must be non-empty). -/
def new (chip : List Nat) (channel : Nat) : Except AttachError PwmAttach :=
  if chip.isEmpty then .error (.InvalidTarget chip)
  else .ok ⟨chip, channel, [], 1⟩

/-- `PwmAttach::attach` from `attach/pwm.rs`: hand out `next_id`, increment the
counter, push the id. -/
def attach (s : PwmAttach) : AttachId × PwmAttach :=
  let id := AttachId.mk s.next_id
  (id, { s with next_id := s.next_id + 1, attached := s.attached ++ [id] })

/-- `PwmAttach::detach` from `attach/pwm.rs`: find-and-remove the first
occurrence, `ResourceNotFound` if absent. -/
def detach (s : PwmAttach) (id : AttachId) : Except AttachError PwmAttach :=
  match s.attached.indexOf? id with
  | some idx => .ok { s with attached := s.attached.eraseIdx idx }
  | none => .error .ResourceNotFound

end PwmAttach

/-- GPIO edge selector from `attach/gpio.rs`. -/
inductive GpioEdge where
  | Rising
  | Falling
  | Both
deriving DecidableEq, Repr

/-- Registry state of `GpioAttach` from `attach/gpio.rs`. -/
structure GpioAttach where
  chip : List Nat
  line : Nat
  edge : GpioEdge
  attached : List AttachId
  next_id : Nat
deriving DecidableEq, Repr

namespace GpioAttach

/-- `GpioAttach::new` from `attach/gpio.rs`. -/
def new (chip : List Nat) (line : Nat) (edge : GpioEdge) :
    Except AttachError GpioAttach :=
  if chip.isEmpty then .error (.InvalidTarget chip)
  else .ok ⟨chip, line, edge, [], 1⟩

/-- `GpioAttach::attach` from `attach/gpio.rs`. -/
def attach (s : GpioAttach) : AttachId × GpioAttach :=
  let id := AttachId.mk s.next_id
  (id, { s with next_id := s.next_id + 1, attached := s.attached ++ [id] })

/-- `GpioAttach::detach` from `attach/gpio.rs`. -/
def detach (s : GpioAttach) (id : AttachId) : Except AttachError GpioAttach :=
  match s.attached.indexOf? id with
  | some idx => .ok { s with attached := s.attached.eraseIdx idx }
  | none => .error .ResourceNotFound

end GpioAttach

end Attach

namespace RingBuf

/-- The busy flag: bit 31 of the record length word
(`RecordHeader::BPF_RINGBUF_BUSY_BIT` in `rk_bridge/src/ringbuf.rs`). -/
def BUSY_BIT : Nat := 1 <<< 31

/-- The discard flag: bit 30 (`RecordHeader::BPF_RINGBUF_DISCARD_BIT`). -/
def DISCARD_BIT : Nat := 1 <<< 30

/-- `RecordHeader::is_busy`. -/
def isBusy (len : Nat) : Bool := len &&& BUSY_BIT ≠ 0

/-- `RecordHeader::is_discarded`. -/
def isDiscarded (len : Nat) : Bool := len &&& DISCARD_BIT ≠ 0

/-- `RecordHeader::data_len`: the length word with both flag bits cleared
(`len & !(BUSY | DISCARD)` on `u32`). -/
def dataLen (len : Nat) : Nat := len &&& ((BUSY_BIT ||| DISCARD_BIT) ^^^ 0xFFFFFFFF)

/-- The consumer's view of the mapped ring buffer: the data region as a byte
function over offsets `0 ..< dataSize` (`RingBufConsumer.data`), plus its size. -/
structure Consumer where
  dataSize : Nat
  data : Nat → Nat

/-- Read the `u32` length word of the record header at `off` (the consumer
reads a `RecordHeader` by plain dereference; bytes are little-endian). -/
def readLenWord (c : Consumer) (off : Nat) : Nat :=
  c.data off + 256 * c.data (off + 1) + 65536 * c.data (off + 2) +
    16777216 * c.data (off + 3)

/-- Payload extraction of `read_event`: copy `len` bytes starting at
`dataOffset`, handling the single wrap point. -/
def copyPayload (c : Consumer) (dataOffset len : Nat) : List Nat :=
  let firstChunk := min len (c.dataSize - dataOffset)
  (List.range len).map fun j =>
    if j < firstChunk then c.data (dataOffset + j) else c.data (j - firstChunk)

/-- `RingBufConsumer::read_event` from `rk_bridge/src/ringbuf.rs`, with the two
position counters passed explicitly. Returns the event (if any) together with
the consumer position as left by the call; a busy record or an empty buffer
returns `none` without touching the position, a discarded record advances it
and retries. -/
def readEvent (c : Consumer) (consPos prodPos : Nat) : Option (List Nat) × Nat :=
  if h : consPos < prodPos then
    let mask := c.dataSize - 1
    let recordOffset := consPos &&& mask
    let lenWord := readLenWord c recordOffset
    if isBusy lenWord then
      (none, consPos)
    else
      let len := dataLen lenWord
      let recordSize := 8 * ((8 + len + 7) / 8)
      let payload :=
        if isDiscarded lenWord then []
        else copyPayload c ((recordOffset + 8) &&& mask) len
      let newConsPos := consPos + recordSize
      if payload.isEmpty then
        readEvent c newConsPos prodPos
      else
        (some payload, newConsPos)
  else
    (none, consPos)
termination_by prodPos - consPos
decreasing_by
  omega

end RingBuf

namespace Phys

/-- `FrameState` from `kernel_physical_memory/src/lib.rs`. -/
inductive FrameState where
  | Unusable
  | Allocated
  | Free
deriving DecidableEq, Repr

/-- Modelled from the spec: `MemoryRegion` (its file `region.rs` is not among
the sources) — "a contiguous run of frames with a base address and a dense
per-frame state array". -/
structure MemoryRegion where
  base_addr : Nat
  frames : List FrameState
deriving DecidableEq, Repr

namespace MemoryRegion

/-- Modelled from the spec: the physical address of local frame `i`
(frames are dense 4 KiB units starting at the base address). -/
def frame_address (r : MemoryRegion) (i : Nat) : Option Nat :=
  if i < r.frames.length then some (r.base_addr + 4096 * i) else none

/-- Modelled from the spec: the local index of the frame containing `addr`,
when `addr` falls inside the region. -/
def frame_index (r : MemoryRegion) (addr : Nat) : Option Nat :=
  if r.base_addr ≤ addr ∧ addr < r.base_addr + 4096 * r.frames.length then
    some ((addr - r.base_addr) / 4096)
  else none

end MemoryRegion

/-- `PhysicalMemoryManager` from `kernel_physical_memory/src/lib.rs`;
`first_free` is the cached cursor (`RegionFrameIndex` as a pair). -/
structure PhysicalMemoryManager where
  regions : List MemoryRegion
  first_free : Option (Nat × Nat)
deriving DecidableEq, Repr

/-- Index of the first `Free` entry of a frame array
(`iter().position(|&s| s == FrameState::Free)`). -/
def firstFreeIdx : List FrameState → Option Nat
  | [] => none
  | f :: rest => if f = .Free then some 0 else (firstFreeIdx rest).map (· + 1)

/-- Scan of `find_first_free_internal`, carried out from absolute region
index `d` over the region list `rs`. -/
def findFirstFreeAux : List MemoryRegion → Nat → Option (Nat × Nat)
  | [], _ => none
  | r :: rest, d =>
    match firstFreeIdx r.frames with
    | some i => some (d, i)
    | none => findFirstFreeAux rest (d + 1)

/-- `PhysicalMemoryManager::find_first_free_internal`. -/
def find_first_free_internal (regions : List MemoryRegion) : Option (Nat × Nat) :=
  findFirstFreeAux regions 0

/-- `PhysicalMemoryManager::new`. -/
def new (regions : List MemoryRegion) : PhysicalMemoryManager :=
  { regions := regions, first_free := find_first_free_internal regions }

/-- Scan of `find_frame_location` from absolute region index `d`. -/
def findFrameLocationAux : List MemoryRegion → Nat → Nat → Option (Nat × Nat)
  | [], _, _ => none
  | r :: rest, d, addr =>
    match r.frame_index addr with
    | some i => some (d, i)
    | none => findFrameLocationAux rest (d + 1) addr

/-- `PhysicalMemoryManager::find_frame_location`. -/
def find_frame_location (regions : List MemoryRegion) (addr : Nat) : Option (Nat × Nat) :=
  findFrameLocationAux regions 0 addr

/-- `PhysicalMemoryManager::update_first_free`: look for a `Free` frame at or
after `start_index` in region `start_region`, then in subsequent regions;
`None` if the search is exhausted. -/
def update_first_free (s : PhysicalMemoryManager) (start_region start_index : Nat) :
    PhysicalMemoryManager :=
  let inCurrent : Option Nat :=
    match s.regions[start_region]? with
    | some region =>
      if start_index < region.frames.length then
        (firstFreeIdx (region.frames.drop start_index)).map (start_index + ·)
      else none
    | none => none
  match inCurrent with
  | some i => { s with first_free := some (start_region, i) }
  | none =>
    { s with
      first_free := findFirstFreeAux (s.regions.drop (start_region + 1)) (start_region + 1) }

/-- Whether the `cnt` frames starting at `start` are all `Free`
(the `all_free` window check of `allocate_frames_impl`). -/
def windowFree (frames : List FrameState) (start cnt : Nat) : Bool :=
  ((frames.drop start).take cnt).all fun f => decide (f = .Free)

/-- The stride-`stride` window scan of `allocate_frames_impl`, started at
`start`, executed for `iters` loop iterations (ascending). -/
def searchWinAux (frames : List FrameState) (cnt stride : Nat) :
    Nat → Nat → Option Nat
  | _, 0 => none
  | start, it + 1 =>
    if windowFree frames start cnt then some start
    else searchWinAux frames cnt stride (start + stride) it

/-- The inner `while current_start + small_frame_count <= region.len()` loop of
`allocate_frames_impl`: `niters` is the exact number of loop iterations the
Rust condition admits (for positive `stride`). -/
def searchWin (frames : List FrameState) (cnt stride astart : Nat) : Option Nat :=
  let len := frames.length
  let niters := if astart + cnt ≤ len then (len - cnt - astart) / stride + 1 else 0
  searchWinAux frames cnt stride astart niters

/-- The `aligned_search_start` computation of `allocate_frames_impl`: align the
local search start up so that its physical address is `ssize`-aligned;
`none` mirrors the `continue` on an out-of-bounds `frame_address`. -/
def alignedSearchStart (region : MemoryRegion) (searchStart ssize : Nat) : Option Nat :=
  match region.frame_address searchStart with
  | none => none
  | some addr =>
    let mis := addr % ssize
    some (if mis = 0 then searchStart else searchStart + (ssize - mis) / 4096)

/-- The outer `for region_idx in ff.region_idx..self.regions.len()` loop of
`allocate_frames_impl`, with `rem` remaining regions to visit. -/
def searchRegionsAux (regions : List MemoryRegion) (ffr ffi cnt stride ssize : Nat) :
    Nat → Nat → Option (Nat × Nat)
  | _, 0 => none
  | idx, rem + 1 =>
    match regions[idx]? with
    | none => none
    | some region =>
      let searchStart := if idx = ffr then ffi else 0
      if region.frames.length ≤ searchStart then
        searchRegionsAux regions ffr ffi cnt stride ssize (idx + 1) rem
      else
        match alignedSearchStart region searchStart ssize with
        | none => searchRegionsAux regions ffr ffi cnt stride ssize (idx + 1) rem
        | some astart =>
          match searchWin region.frames cnt stride astart with
          | some st => some (idx, st)
          | none => searchRegionsAux regions ffr ffi cnt stride ssize (idx + 1) rem

/-- Mark the `cnt` frames starting at `start` as `Allocated`
(`frames_mut()[frame_start_idx..=frame_end_idx].fill(FrameState::Allocated)`). -/
def fillAllocated (frames : List FrameState) (start : Nat) : Nat → List FrameState
  | 0 => frames
  | cnt + 1 => (fillAllocated frames start cnt).set (start + cnt) .Allocated

/-- `PhysicalMemoryManager::allocate_frames_impl` for page size `ssize` and
page count `n`. Returns the inclusive range of page start addresses (start of
first page, start of last page) and the state as left by the call. The
`n = 0` case index-underflows and panics in Rust before any observable
mutation, and a misaligned computed address makes the final
`PhysFrame::from_start_address(..).expect(..)` panic after mutating; both are
embedded as a `none` result. -/
def allocate_frames_impl (s : PhysicalMemoryManager) (ssize n : Nat) :
    Option (Nat × Nat) × PhysicalMemoryManager :=
  let spf := ssize / 4096
  let cnt := n * spf
  match s.first_free with
  | none => (none, s)
  | some (ffr, ffi) =>
    if cnt = 0 then (none, s)
    else
      match searchRegionsAux s.regions ffr ffi cnt spf ssize ffr (s.regions.length - ffr) with
      | none => (none, s)
      | some (ridx, st) =>
        match s.regions[ridx]? with
        | none => (none, s)
        | some region =>
          -- the two `frame_address` lookups are in bounds here, so they are
          -- computed directly
          let startAddr := region.base_addr + 4096 * st
          let endAddr := region.base_addr + 4096 * (st + (n - 1) * spf)
          let regions :=
            s.regions.set ridx { region with frames := fillAllocated region.frames st cnt }
          let s1 : PhysicalMemoryManager := { s with regions := regions }
          let s2 :=
            if ridx = ffr ∧ st ≤ ffi then update_first_free s1 ridx (st + cnt) else s1
          if startAddr % ssize = 0 ∧ endAddr % ssize = 0 then
            (some (startAddr, endAddr), s2)
          else
            (none, s2)

/-- `deallocate_frame` for 4 KiB frames
(`PhysicalFrameAllocator<Size4KiB>::deallocate_frame`). -/
def deallocate_frame_4k (s : PhysicalMemoryManager) (addr : Nat) :
    Option Nat × PhysicalMemoryManager :=
  match find_frame_location s.regions addr with
  | none => (none, s)
  | some (r, i) =>
    match s.regions[r]? with
    | none => (none, s)
    | some region =>
      if region.frames.getD i .Unusable = .Allocated then
        let regions := s.regions.set r { region with frames := region.frames.set i .Free }
        let isBefore : Bool :=
          match s.first_free with
          | some (fr, fi) => decide (r < fr ∨ (r = fr ∧ i < fi))
          | none => true
        (some addr,
          { regions := regions,
            first_free := if isBefore then some (r, i) else s.first_free })
      else (none, s)

/-- `addr & !(a - 1)` for the power-of-two frame sizes used here
(`PhysFrame::containing_address`). -/
def alignDown (x a : Nat) : Nat := x - x % a

/-- One step of the 2 MiB deallocation cascade: once a sub-frame fails the
whole loop is abandoned (`?` in Rust), embedded by threading a success flag. -/
def dealloc2MStep (addr : Nat) (acc : Bool × PhysicalMemoryManager) (i : Nat) :
    Bool × PhysicalMemoryManager :=
  match acc with
  | (false, s) => (false, s)
  | (true, s) =>
    match deallocate_frame_4k s (alignDown (addr + 4096 * i) 4096) with
    | (some _, s1) => (true, s1)
    | (none, s1) => (false, s1)

/-- `PhysicalFrameAllocator<Size2MiB>::deallocate_frame`: cascade over the 512
4 KiB sub-frames in ascending order. -/
def deallocate_frame_2m (s : PhysicalMemoryManager) (addr : Nat) :
    Option Nat × PhysicalMemoryManager :=
  let r := (List.range 512).foldl (dealloc2MStep addr) (true, s)
  (if r.1 then some addr else none, r.2)

/-- One step of the 1 GiB deallocation cascade (over 2 MiB sub-frames). -/
def dealloc1GStep (addr : Nat) (acc : Bool × PhysicalMemoryManager) (i : Nat) :
    Bool × PhysicalMemoryManager :=
  match acc with
  | (false, s) => (false, s)
  | (true, s) =>
    match deallocate_frame_2m s (alignDown (addr + 0x200000 * i) 0x200000) with
    | (some _, s1) => (true, s1)
    | (none, s1) => (false, s1)

/-- `PhysicalFrameAllocator<Size1GiB>::deallocate_frame`: cascade over the 512
2 MiB sub-frames in ascending order. -/
def deallocate_frame_1g (s : PhysicalMemoryManager) (addr : Nat) :
    Option Nat × PhysicalMemoryManager :=
  let r := (List.range 512).foldl (dealloc1GStep addr) (true, s)
  (if r.1 then some addr else none, r.2)

/-- The frame state stored at absolute location `l = (region, index)`. -/
def regState (regions : List MemoryRegion) (l : Nat × Nat) : Option FrameState :=
  (regions[l.1]?).bind fun r => r.frames[l.2]?

/-- The frame state at location `l` in manager `s`. -/
def stateAt (s : PhysicalMemoryManager) (l : Nat × Nat) : Option FrameState :=
  regState s.regions l

/-- Strict lexicographic order on locations: lower region index, or the same
region with a lower frame index. -/
def lexLt (a b : Nat × Nat) : Prop := a.1 < b.1 ∨ (a.1 = b.1 ∧ a.2 < b.2)

instance (a b : Nat × Nat) : Decidable (lexLt a b) := by
  unfold lexLt
  infer_instance

/-- The cursor invariant: a present cursor points at a `Free` frame with no
`Free` frame strictly earlier; an absent cursor means no `Free` frame at all. -/
def CursorInv (s : PhysicalMemoryManager) : Prop :=
  (∀ l, s.first_free = some l → stateAt s l = some FrameState.Free ∧
    ∀ l', lexLt l' l → stateAt s l' ≠ some FrameState.Free) ∧
  (s.first_free = none → ∀ l', stateAt s l' ≠ some FrameState.Free)

/-- One public allocator call (any page size, any argument). -/
inductive Step : PhysicalMemoryManager → PhysicalMemoryManager → Prop where
  | alloc4k (s : PhysicalMemoryManager) (n : Nat) : Step s (allocate_frames_impl s 4096 n).2
  | alloc2m (s : PhysicalMemoryManager) (n : Nat) : Step s (allocate_frames_impl s 0x200000 n).2
  | alloc1g (s : PhysicalMemoryManager) (n : Nat) : Step s (allocate_frames_impl s 0x40000000 n).2
  | dealloc4k (s : PhysicalMemoryManager) (addr : Nat) : Step s (deallocate_frame_4k s addr).2
  | dealloc2m (s : PhysicalMemoryManager) (addr : Nat) : Step s (deallocate_frame_2m s addr).2
  | dealloc1g (s : PhysicalMemoryManager) (addr : Nat) : Step s (deallocate_frame_1g s addr).2

/-- States reachable from `new regions` by any sequence of allocator calls. -/
inductive Reachable (regions : List MemoryRegion) : PhysicalMemoryManager → Prop where
  | init : Reachable regions (new regions)
  | step {s s1 : PhysicalMemoryManager} :
      Reachable regions s → Step s s1 → Reachable regions s1

/-- The allocator's check that a 4 KiB frame at address `a` is currently
`Allocated` (the success condition of `deallocate_frame_4k`). -/
def frameAllocated (s : PhysicalMemoryManager) (a : Nat) : Bool :=
  match find_frame_location s.regions a with
  | none => false
  | some (r, i) =>
    match s.regions[r]? with
    | none => false
    | some region => decide (region.frames.getD i .Unusable = .Allocated)

/-- The region skeleton (base address and frame count per region); allocator
calls never change it. -/
def regionsShape (regions : List MemoryRegion) : List (Nat × Nat) :=
  regions.map fun r => (r.base_addr, r.frames.length)

/-- `s1` differs from `s` at most by frames moving from `Allocated` to `Free`. -/
def Degrade (s s1 : PhysicalMemoryManager) : Prop :=
  ∀ l, stateAt s1 l = stateAt s l ∨
    (stateAt s l = some .Allocated ∧ stateAt s1 l = some .Free)

end Phys

namespace Syscall

/-- The fields of `BpfAttr` that `sys_bpf` reads (pointer-sized values as
`Nat`); the struct itself lives in `kernel_abi` and its fields are repurposed
per command. -/
structure BpfAttr where
  prog_type : Nat
  insn_cnt : Nat
  insns : Nat
  map_fd : Nat
  key : Nat
  value : Nat
  flags : Nat
  attach_btf_id : Nat
  attach_prog_fd : Nat
deriving DecidableEq, Repr

/-- `BPF_PROG_LOAD` from `kernel_abi/src/bpf.rs`. -/
def BPF_PROG_LOAD : Nat := 5

/-- The instruction-pointer/count validity check of the `BPF_PROG_LOAD` arm of
`sys_bpf` (`syscall/bpf.rs`): reject a null pointer, a zero count, or a count
above 4096. -/
def progLoadInsnsValid (insnsPtr insnCnt : Nat) : Bool :=
  !(insnsPtr == 0 || insnCnt == 0 || insnCnt > 4096)

/-- The `BPF_PROG_LOAD` arm of `sys_bpf` from `syscall/bpf.rs`. The manager
(`BPF_MANAGER` / `load_raw_program`, outside these sources) is abstracted as
`loadResult`: `none` when the manager is uninitialized, otherwise the result of
`load_raw_program`. The second component records whether `load_raw_program`
was invoked. -/
def sysBpfProgLoad (attrPtr : Nat) (attr : BpfAttr)
    (loadResult : Option (Option Nat)) : Int × Bool :=
  if attrPtr = 0 then (-1, false)
  else if ¬progLoadInsnsValid attr.insns attr.insn_cnt then (-1, false)
  else
    match loadResult with
    | none => (-1, false)
    | some none => (-1, true)
    | some (some id) => ((id : Int), true)

/-- The only check `sys_bpf` performs on `attr_ptr` before dereferencing it
(`if attr_ptr == 0 { return -1 }` in every command arm of `syscall/bpf.rs`). -/
def sysBpfAttrPtrCheck (attrPtr : Nat) : Bool := attrPtr != 0

/-- Modelled from the spec: the upper end of the userspace address range
("lower half"; `kernel_syscall::UserspacePtr` is not among the sources). -/
def USERSPACE_TOP : Nat := 2 ^ 47

/-- `copy_from_userspace` validation from `syscall/validation.rs`: non-null,
within the userspace range, and aligned. -/
def copyFromUserspaceValid (ptr size align : Nat) : Bool :=
  ptr != 0 && decide (ptr + size ≤ USERSPACE_TOP) && (ptr % align == 0)

end Syscall

namespace Bpf

/-- A 64-bit BPF instruction record: opcode byte, destination and source
register nibbles, signed 16-bit offset, signed 32-bit immediate
(`bytecode/insn.rs`; modelled from the spec's instruction layout). -/
structure BpfInsn where
  opcode : Nat
  dst : Nat
  src : Nat
  offset : Int
  imm : Int
deriving DecidableEq, Repr

/-- Truncate an `Int` to `w` unsigned bits (Rust `as uN` casts). -/
def intToU (w : Nat) (v : Int) : Nat := (v % ((2 ^ w : Nat) : Int)).toNat

/-- Write `x` as `w` little-endian bytes (`to_le_bytes`). -/
def natToLe (w x : Nat) : List Nat := (List.range w).map fun i => x >>> (8 * i) &&& 0xFF

/-- Modelled from the spec: instruction classes live in the low 3 bits of the
opcode (the bytecode module is not among the sources; the numeric encoding is
the standard eBPF one the spec mirrors). -/
inductive OpcodeClass where
  | Ld
  | Ldx
  | St
  | Stx
  | Alu32
  | Jmp
  | Jmp32
  | Alu64
deriving DecidableEq, Repr

/-- Modelled from the spec: `OpcodeClass` from the low 3 opcode bits. -/
def classOf (op : Nat) : Option OpcodeClass :=
  match op &&& 7 with
  | 0 => some .Ld
  | 1 => some .Ldx
  | 2 => some .St
  | 3 => some .Stx
  | 4 => some .Alu32
  | 5 => some .Jmp
  | 6 => some .Jmp32
  | 7 => some .Alu64
  | _ => none

/-- Immediate or register source operand. -/
inductive SourceType where
  | Imm
  | Reg
deriving DecidableEq, Repr

/-- Modelled from the spec: bit 3 of the opcode selects the source type. -/
def sourceOf (op : Nat) : SourceType := if op &&& 8 = 0 then .Imm else .Reg

/-- ALU operations. -/
inductive AluOp where
  | Add
  | Sub
  | Mul
  | Div
  | Or
  | And
  | Lsh
  | Rsh
  | Neg
  | Mod
  | Xor
  | Mov
  | Arsh
  | End
deriving DecidableEq, Repr

/-- Modelled from the spec: `AluOp` from the high opcode bits (standard eBPF
numbering). -/
def aluOpOf (op : Nat) : Option AluOp :=
  match op &&& 0xF0 with
  | 0x00 => some .Add
  | 0x10 => some .Sub
  | 0x20 => some .Mul
  | 0x30 => some .Div
  | 0x40 => some .Or
  | 0x50 => some .And
  | 0x60 => some .Lsh
  | 0x70 => some .Rsh
  | 0x80 => some .Neg
  | 0x90 => some .Mod
  | 0xA0 => some .Xor
  | 0xB0 => some .Mov
  | 0xC0 => some .Arsh
  | 0xD0 => some .End
  | _ => none

/-- Jump operations. -/
inductive JmpOp where
  | Ja
  | Jeq
  | Jgt
  | Jge
  | Jset
  | Jne
  | Jsgt
  | Jsge
  | Call
  | Exit
  | Jlt
  | Jle
  | Jslt
  | Jsle
deriving DecidableEq, Repr

/-- Modelled from the spec: `JmpOp` from the high opcode bits (standard eBPF
numbering). -/
def jmpOpOf (op : Nat) : Option JmpOp :=
  match op &&& 0xF0 with
  | 0x00 => some .Ja
  | 0x10 => some .Jeq
  | 0x20 => some .Jgt
  | 0x30 => some .Jge
  | 0x40 => some .Jset
  | 0x50 => some .Jne
  | 0x60 => some .Jsgt
  | 0x70 => some .Jsge
  | 0x80 => some .Call
  | 0x90 => some .Exit
  | 0xA0 => some .Jlt
  | 0xB0 => some .Jle
  | 0xC0 => some .Jslt
  | 0xD0 => some .Jsle
  | _ => none

/-- Memory access widths. -/
inductive MemSize where
  | Byte
  | Half
  | Word
  | DWord
deriving DecidableEq, Repr

/-- Modelled from the spec: `MemSize` from opcode bits 3-4 (standard eBPF
numbering). -/
def memSizeOf (op : Nat) : Option MemSize :=
  match op &&& 0x18 with
  | 0x00 => some .Word
  | 0x08 => some .Half
  | 0x10 => some .Byte
  | 0x18 => some .DWord
  | _ => none

/-- Modelled from the spec: a wide (two-slot) load is recognized when the
opcode's low byte is `0x18`. -/
def isWide (insn : BpfInsn) : Bool := insn.opcode == 0x18

/-- Modelled from the spec: the exit instruction (`JMP | EXIT`, opcode `0x95`). -/
def isExit (insn : BpfInsn) : Bool := insn.opcode == 0x95

/-- x86_64 register encodings from `execution/jit/mod.rs`. -/
def RAX : Nat := 0
def RCX : Nat := 1
def RDX : Nat := 2
def RBX : Nat := 3
def RSP : Nat := 4
def RBP : Nat := 5
def RSI : Nat := 6
def RDI : Nat := 7
def R8 : Nat := 8
def R9 : Nat := 9
def R13 : Nat := 13
def R14 : Nat := 14
def R15 : Nat := 15

/-- `BPF_TO_X64` register mapping from `execution/jit/mod.rs`. -/
def BPF_TO_X64 : List Nat := [RAX, RDI, RSI, RDX, RCX, R8, RBX, R13, R14, R15, RBP]

/-- Map a BPF register index to its host register. -/
def bpfToX64 (r : Nat) : Nat := BPF_TO_X64.getD r 0

/-- `TMP_REG` (host `R9`) from `execution/jit/mod.rs`. -/
def TMP_REG : Nat := R9

/-- `JitError` from `execution/jit/mod.rs`. -/
inductive JitError where
  | NotImplemented
  | AllocationFailed
  | CodegenFailed
  | UnsupportedInstruction
deriving DecidableEq, Repr

/-- `X64Emitter` state from `execution/jit/mod.rs`: emitted code bytes, pending
jump patches `(code_offset, target_insn_idx)`, and per-BPF-instruction code
offsets. -/
structure Emitter where
  code : List Nat
  jump_patches : List (Nat × Nat)
  insn_offsets : List Nat
deriving DecidableEq, Repr

namespace Emitter

/-- `X64Emitter::new`. -/
def new : Emitter := ⟨[], [], []⟩

/-- `emit_byte`. -/
def emitByte (e : Emitter) (b : Nat) : Emitter := { e with code := e.code ++ [b] }

/-- `emit_bytes`. -/
def emitBytes (e : Emitter) (bs : List Nat) : Emitter := { e with code := e.code ++ bs }

/-- `offset`: the current code offset. -/
def offset (e : Emitter) : Nat := e.code.length

/-- `mark_insn`: record the start of a BPF instruction. -/
def markInsn (e : Emitter) : Emitter :=
  { e with insn_offsets := e.insn_offsets ++ [e.offset] }

/-- `record_jump`: the 32-bit displacement sits at `offset - 4`. -/
def recordJump (e : Emitter) (targetInsn : Nat) : Emitter :=
  { e with jump_patches := e.jump_patches ++ [(e.offset - 4, targetInsn)] }

/-- `needs_rex`: registers R8-R15 need a REX extension bit. -/
def needsRex (reg : Nat) : Bool := reg ≥ 8

/-- `rex`: build a REX byte. -/
def rex (w : Bool) (r x b : Nat) : Nat :=
  let v := 0x40
  let v := if w then v ||| 0x08 else v
  let v := if r ≥ 8 then v ||| 0x04 else v
  let v := if x ≥ 8 then v ||| 0x02 else v
  if b ≥ 8 then v ||| 0x01 else v

/-- `modrm`: build a ModR/M byte. -/
def modrm (md reg rm : Nat) : Nat :=
  ((md &&& 0x3) <<< 6) ||| ((reg &&& 0x7) <<< 3) ||| (rm &&& 0x7)

/-- `emit_mov_reg` (REX.W + 89 /r). -/
def emitMovReg (e : Emitter) (dst src : Nat) : Emitter :=
  ((e.emitByte (rex true src 0 dst)).emitByte 0x89).emitByte (modrm 0b11 src dst)

/-- `emit_mov_imm64` (REX.W + B8+rd io); `imm` is the `i64` immediate. -/
def emitMovImm64 (e : Emitter) (dst : Nat) (imm : Int) : Emitter :=
  ((e.emitByte (rex true 0 0 dst)).emitByte (0xB8 + (dst &&& 0x7))).emitBytes
    (natToLe 8 (intToU 64 imm))

/-- `emit_mov_imm32` (REX.W + C7 /0 id, sign-extended). -/
def emitMovImm32 (e : Emitter) (dst : Nat) (imm : Int) : Emitter :=
  (((e.emitByte (rex true 0 0 dst)).emitByte 0xC7).emitByte (modrm 0b11 0 dst)).emitBytes
    (natToLe 4 (intToU 32 imm))

/-- `emit_xor_reg` (REX.W + 31 /r). -/
def emitXorReg (e : Emitter) (dst src : Nat) : Emitter :=
  ((e.emitByte (rex true src 0 dst)).emitByte 0x31).emitByte (modrm 0b11 src dst)

/-- `emit_add_reg` (REX.W + 01 /r). -/
def emitAddReg (e : Emitter) (dst src : Nat) : Emitter :=
  ((e.emitByte (rex true src 0 dst)).emitByte 0x01).emitByte (modrm 0b11 src dst)

/-- `emit_add_imm32` (REX.W + 81 /0 id). -/
def emitAddImm32 (e : Emitter) (dst : Nat) (imm : Int) : Emitter :=
  (((e.emitByte (rex true 0 0 dst)).emitByte 0x81).emitByte (modrm 0b11 0 dst)).emitBytes
    (natToLe 4 (intToU 32 imm))

/-- `emit_sub_reg` (REX.W + 29 /r). -/
def emitSubReg (e : Emitter) (dst src : Nat) : Emitter :=
  ((e.emitByte (rex true src 0 dst)).emitByte 0x29).emitByte (modrm 0b11 src dst)

/-- `emit_sub_imm32` (REX.W + 81 /5 id). -/
def emitSubImm32 (e : Emitter) (dst : Nat) (imm : Int) : Emitter :=
  (((e.emitByte (rex true 0 0 dst)).emitByte 0x81).emitByte (modrm 0b11 5 dst)).emitBytes
    (natToLe 4 (intToU 32 imm))

/-- `emit_imul_reg` (REX.W + 0F AF /r). -/
def emitImulReg (e : Emitter) (dst src : Nat) : Emitter :=
  ((e.emitByte (rex true dst 0 src)).emitBytes [0x0F, 0xAF]).emitByte (modrm 0b11 dst src)

/-- `emit_div_reg` (REX.W + F7 /6). -/
def emitDivReg (e : Emitter) (src : Nat) : Emitter :=
  ((e.emitByte (rex true 0 0 src)).emitByte 0xF7).emitByte (modrm 0b11 6 src)

/-- `emit_and_reg` (REX.W + 21 /r). -/
def emitAndReg (e : Emitter) (dst src : Nat) : Emitter :=
  ((e.emitByte (rex true src 0 dst)).emitByte 0x21).emitByte (modrm 0b11 src dst)

/-- `emit_and_imm32` (REX.W + 81 /4 id). -/
def emitAndImm32 (e : Emitter) (dst : Nat) (imm : Int) : Emitter :=
  (((e.emitByte (rex true 0 0 dst)).emitByte 0x81).emitByte (modrm 0b11 4 dst)).emitBytes
    (natToLe 4 (intToU 32 imm))

/-- `emit_or_reg` (REX.W + 09 /r). -/
def emitOrReg (e : Emitter) (dst src : Nat) : Emitter :=
  ((e.emitByte (rex true src 0 dst)).emitByte 0x09).emitByte (modrm 0b11 src dst)

/-- `emit_or_imm32` (REX.W + 81 /1 id). -/
def emitOrImm32 (e : Emitter) (dst : Nat) (imm : Int) : Emitter :=
  (((e.emitByte (rex true 0 0 dst)).emitByte 0x81).emitByte (modrm 0b11 1 dst)).emitBytes
    (natToLe 4 (intToU 32 imm))

/-- `emit_xor_imm32` (REX.W + 81 /6 id). -/
def emitXorImm32 (e : Emitter) (dst : Nat) (imm : Int) : Emitter :=
  (((e.emitByte (rex true 0 0 dst)).emitByte 0x81).emitByte (modrm 0b11 6 dst)).emitBytes
    (natToLe 4 (intToU 32 imm))

/-- `emit_shl_cl` (REX.W + D3 /4). -/
def emitShlCl (e : Emitter) (dst : Nat) : Emitter :=
  ((e.emitByte (rex true 0 0 dst)).emitByte 0xD3).emitByte (modrm 0b11 4 dst)

/-- `emit_shl_imm` (REX.W + C1 /4 ib). -/
def emitShlImm (e : Emitter) (dst imm : Nat) : Emitter :=
  (((e.emitByte (rex true 0 0 dst)).emitByte 0xC1).emitByte (modrm 0b11 4 dst)).emitByte
    (imm &&& 0x3F)

/-- `emit_shr_cl` (REX.W + D3 /5). -/
def emitShrCl (e : Emitter) (dst : Nat) : Emitter :=
  ((e.emitByte (rex true 0 0 dst)).emitByte 0xD3).emitByte (modrm 0b11 5 dst)

/-- `emit_shr_imm` (REX.W + C1 /5 ib). -/
def emitShrImm (e : Emitter) (dst imm : Nat) : Emitter :=
  (((e.emitByte (rex true 0 0 dst)).emitByte 0xC1).emitByte (modrm 0b11 5 dst)).emitByte
    (imm &&& 0x3F)

/-- `emit_sar_cl` (REX.W + D3 /7). -/
def emitSarCl (e : Emitter) (dst : Nat) : Emitter :=
  ((e.emitByte (rex true 0 0 dst)).emitByte 0xD3).emitByte (modrm 0b11 7 dst)

/-- `emit_sar_imm` (REX.W + C1 /7 ib). -/
def emitSarImm (e : Emitter) (dst imm : Nat) : Emitter :=
  (((e.emitByte (rex true 0 0 dst)).emitByte 0xC1).emitByte (modrm 0b11 7 dst)).emitByte
    (imm &&& 0x3F)

/-- `emit_neg` (REX.W + F7 /3). -/
def emitNeg (e : Emitter) (dst : Nat) : Emitter :=
  ((e.emitByte (rex true 0 0 dst)).emitByte 0xF7).emitByte (modrm 0b11 3 dst)

/-- `emit_cmp_reg` (REX.W + 39 /r). -/
def emitCmpReg (e : Emitter) (dst src : Nat) : Emitter :=
  ((e.emitByte (rex true src 0 dst)).emitByte 0x39).emitByte (modrm 0b11 src dst)

/-- `emit_cmp_imm32` (REX.W + 81 /7 id). -/
def emitCmpImm32 (e : Emitter) (dst : Nat) (imm : Int) : Emitter :=
  (((e.emitByte (rex true 0 0 dst)).emitByte 0x81).emitByte (modrm 0b11 7 dst)).emitBytes
    (natToLe 4 (intToU 32 imm))

/-- `emit_test_reg` (REX.W + 85 /r). -/
def emitTestReg (e : Emitter) (dst src : Nat) : Emitter :=
  ((e.emitByte (rex true src 0 dst)).emitByte 0x85).emitByte (modrm 0b11 src dst)

/-- `emit_jmp_rel32` (E9 cd). -/
def emitJmpRel32 (e : Emitter) (off : Int) : Emitter :=
  (e.emitByte 0xE9).emitBytes (natToLe 4 (intToU 32 off))

/-- `emit_jcc_rel32` (0F 8x cd). -/
def emitJccRel32 (e : Emitter) (cc : Nat) (off : Int) : Emitter :=
  (e.emitBytes [0x0F, 0x80 + cc]).emitBytes (natToLe 4 (intToU 32 off))

/-- `emit_ret` (C3). -/
def emitRet (e : Emitter) : Emitter := e.emitByte 0xC3

/-- `emit_push` (50+r, REX.B for R8-R15). -/
def emitPush (e : Emitter) (reg : Nat) : Emitter :=
  let e := if reg ≥ 8 then e.emitByte 0x41 else e
  e.emitByte (0x50 + (reg &&& 0x7))

/-- `emit_pop` (58+r, REX.B for R8-R15). -/
def emitPop (e : Emitter) (reg : Nat) : Emitter :=
  let e := if reg ≥ 8 then e.emitByte 0x41 else e
  e.emitByte (0x58 + (reg &&& 0x7))

/-- `emit_modrm_disp`: ModR/M + optional SIB + displacement for
`[base + disp]`. -/
def emitModrmDisp (e : Emitter) (reg base : Nat) (disp : Int) : Emitter :=
  let baseEnc := base &&& 0x7
  let regEnc := reg &&& 0x7
  if baseEnc = RSP then
    if disp = 0 ∧ baseEnc ≠ RBP then
      (e.emitByte (modrm 0b00 regEnc 0b100)).emitByte 0x24
    else if -128 ≤ disp ∧ disp ≤ 127 then
      ((e.emitByte (modrm 0b01 regEnc 0b100)).emitByte 0x24).emitByte (intToU 8 disp)
    else
      ((e.emitByte (modrm 0b10 regEnc 0b100)).emitByte 0x24).emitBytes
        (natToLe 4 (intToU 32 disp))
  else if disp = 0 ∧ baseEnc ≠ RBP then
    e.emitByte (modrm 0b00 regEnc baseEnc)
  else if -128 ≤ disp ∧ disp ≤ 127 then
    (e.emitByte (modrm 0b01 regEnc baseEnc)).emitByte (intToU 8 disp)
  else
    (e.emitByte (modrm 0b10 regEnc baseEnc)).emitBytes (natToLe 4 (intToU 32 disp))

/-- `emit_store` (MOV [base + disp], src at the given width). -/
def emitStore (e : Emitter) (base : Nat) (disp : Int) (src : Nat) (size : MemSize) : Emitter :=
  let e :=
    match size with
    | .Byte => (e.emitByte (rex false src 0 base)).emitByte 0x88
    | .Half => ((e.emitByte 0x66).emitByte (rex false src 0 base)).emitByte 0x89
    | .Word =>
      let e := if needsRex src || needsRex base then e.emitByte (rex false src 0 base) else e
      e.emitByte 0x89
    | .DWord => (e.emitByte (rex true src 0 base)).emitByte 0x89
  emitModrmDisp e src base disp

/-- `emit_load` (MOV reg, [base + disp] at the given width, zero-extending). -/
def emitLoad (e : Emitter) (dst base : Nat) (disp : Int) (size : MemSize) : Emitter :=
  let e :=
    match size with
    | .Byte => (e.emitByte (rex true dst 0 base)).emitBytes [0x0F, 0xB6]
    | .Half => (e.emitByte (rex true dst 0 base)).emitBytes [0x0F, 0xB7]
    | .Word =>
      let e := if needsRex dst || needsRex base then e.emitByte (rex false dst 0 base) else e
      e.emitByte 0x8B
    | .DWord => (e.emitByte (rex true dst 0 base)).emitByte 0x8B
  emitModrmDisp e dst base disp

/-- `emit_xor_rdx_rdx`: zero RDX before an unsigned division. -/
def emitXorRdxRdx (e : Emitter) : Emitter := e.emitXorReg RDX RDX

end Emitter

/-- x86_64 condition codes used by the compiler (`mod cc`). -/
def ccJB : Nat := 0x2
def ccJAE : Nat := 0x3
def ccJE : Nat := 0x4
def ccJNE : Nat := 0x5
def ccJBE : Nat := 0x6
def ccJA : Nat := 0x7
def ccJL : Nat := 0xC
def ccJGE : Nat := 0xD
def ccJLE : Nat := 0xE
def ccJG : Nat := 0xF

/-- `JitProgram`: the emitted code and its entry offset. -/
structure JitProgram where
  code : List Nat
  entry : Nat
deriving DecidableEq, Repr

/-- `Arm64JitCompiler::emit_prologue` (the compiler's `stack_size` is 512). -/
def emitPrologue (e : Emitter) (stackSize : Nat) : Emitter :=
  let e := e.emitPush RBP
  let e := e.emitPush RBX
  let e := e.emitPush R13
  let e := e.emitPush R14
  let e := e.emitPush R15
  let e := e.emitSubImm32 RSP (stackSize : Int)
  e.emitMovReg RBP RSP

/-- `Arm64JitCompiler::emit_epilogue`. -/
def emitEpilogue (e : Emitter) (stackSize : Nat) : Emitter :=
  let e := e.emitAddImm32 RSP (stackSize : Int)
  let e := e.emitPop R15
  let e := e.emitPop R14
  let e := e.emitPop R13
  let e := e.emitPop RBX
  let e := e.emitPop RBP
  e.emitRet

/-- `Arm64JitCompiler::compile_alu`. -/
def compileAlu (e : Emitter) (insn : BpfInsn) (is64bit : Bool) : Except JitError Emitter :=
  let dst := bpfToX64 insn.dst
  let isReg := sourceOf insn.opcode = SourceType.Reg
  match aluOpOf insn.opcode with
  | none => .error .UnsupportedInstruction
  | some op =>
    match op with
    | .Add =>
      if isReg then .ok (e.emitAddReg dst (bpfToX64 insn.src))
      else .ok (e.emitAddImm32 dst insn.imm)
    | .Sub =>
      if isReg then .ok (e.emitSubReg dst (bpfToX64 insn.src))
      else .ok (e.emitSubImm32 dst insn.imm)
    | .Mul =>
      if isReg then .ok (e.emitImulReg dst (bpfToX64 insn.src))
      else .ok ((e.emitMovImm32 TMP_REG insn.imm).emitImulReg dst TMP_REG)
    | .Div =>
      let e := if dst ≠ RAX then (e.emitMovReg TMP_REG RAX).emitMovReg RAX dst else e
      let e := e.emitXorRdxRdx
      let e :=
        if isReg then e.emitDivReg (bpfToX64 insn.src)
        else (e.emitMovImm32 R9 insn.imm).emitDivReg R9
      let e := if dst ≠ RAX then (e.emitMovReg dst RAX).emitMovReg RAX TMP_REG else e
      .ok e
    | .Mod =>
      let e := if dst ≠ RAX then (e.emitMovReg TMP_REG RAX).emitMovReg RAX dst else e
      let e := e.emitXorRdxRdx
      let e :=
        if isReg then e.emitDivReg (bpfToX64 insn.src)
        else (e.emitMovImm32 R9 insn.imm).emitDivReg R9
      let e := e.emitMovReg dst RDX
      let e := if dst ≠ RAX then e.emitMovReg RAX TMP_REG else e
      .ok e
    | .Or =>
      if isReg then .ok (e.emitOrReg dst (bpfToX64 insn.src))
      else .ok (e.emitOrImm32 dst insn.imm)
    | .And =>
      if isReg then .ok (e.emitAndReg dst (bpfToX64 insn.src))
      else .ok (e.emitAndImm32 dst insn.imm)
    | .Xor =>
      if isReg then .ok (e.emitXorReg dst (bpfToX64 insn.src))
      else .ok (e.emitXorImm32 dst insn.imm)
    | .Lsh =>
      if isReg then
        let src := bpfToX64 insn.src
        let e := if src ≠ RCX then e.emitMovReg RCX src else e
        .ok (e.emitShlCl dst)
      else .ok (e.emitShlImm dst (intToU 8 insn.imm))
    | .Rsh =>
      if isReg then
        let src := bpfToX64 insn.src
        let e := if src ≠ RCX then e.emitMovReg RCX src else e
        .ok (e.emitShrCl dst)
      else .ok (e.emitShrImm dst (intToU 8 insn.imm))
    | .Arsh =>
      if isReg then
        let src := bpfToX64 insn.src
        let e := if src ≠ RCX then e.emitMovReg RCX src else e
        .ok (e.emitSarCl dst)
      else .ok (e.emitSarImm dst (intToU 8 insn.imm))
    | .Neg => .ok (e.emitNeg dst)
    | .Mov =>
      if isReg then .ok (e.emitMovReg dst (bpfToX64 insn.src))
      else if insn.imm = 0 then .ok (e.emitXorReg dst dst)
      else .ok (e.emitMovImm32 dst insn.imm)
    | .End => .error .UnsupportedInstruction

/-- `Arm64JitCompiler::compile_jmp` (`_is_64bit` is unused in the source,
mirrored here). -/
def compileJmp (e : Emitter) (insn : BpfInsn) (stackSize : Nat) : Except JitError Emitter :=
  match jmpOpOf insn.opcode with
  | none => .error .UnsupportedInstruction
  | some .Ja =>
    let e := e.emitJmpRel32 0
    let target := intToU 64 ((e.insn_offsets.length : Int) + insn.offset)
    .ok (e.recordJump target)
  | some .Call => .ok (e.emitXorReg RAX RAX)
  | some .Exit => .ok (emitEpilogue e stackSize)
  | some op =>
    let dst := bpfToX64 insn.dst
    let isReg := sourceOf insn.opcode = SourceType.Reg
    let e :=
      if isReg then e.emitCmpReg dst (bpfToX64 insn.src)
      else e.emitCmpImm32 dst insn.imm
    let ccE : Nat × Emitter :=
      match op with
      | .Jeq => (ccJE, e)
      | .Jne => (ccJNE, e)
      | .Jgt => (ccJA, e)
      | .Jge => (ccJAE, e)
      | .Jlt => (ccJB, e)
      | .Jle => (ccJBE, e)
      | .Jsgt => (ccJG, e)
      | .Jsge => (ccJGE, e)
      | .Jslt => (ccJL, e)
      | .Jsle => (ccJLE, e)
      | _ =>
        -- Jset: TEST then JNE (the remaining constructors are handled above)
        let e :=
          if isReg then e.emitTestReg dst (bpfToX64 insn.src)
          else (e.emitMovImm32 TMP_REG insn.imm).emitTestReg dst TMP_REG
        (ccJNE, e)
    let e := ccE.2.emitJccRel32 ccE.1 0
    let target := intToU 64 ((e.insn_offsets.length : Int) + insn.offset)
    .ok (e.recordJump target)

/-- `Arm64JitCompiler::compile_load`. -/
def compileLoad (e : Emitter) (insn : BpfInsn) : Except JitError Emitter :=
  let dst := bpfToX64 insn.dst
  let src := bpfToX64 insn.src
  match memSizeOf insn.opcode with
  | none => .error .UnsupportedInstruction
  | some size => .ok (e.emitLoad dst src insn.offset size)

/-- `Arm64JitCompiler::compile_store`. -/
def compileStore (e : Emitter) (insn : BpfInsn) : Except JitError Emitter :=
  let dst := bpfToX64 insn.dst
  match memSizeOf insn.opcode with
  | none => .error .UnsupportedInstruction
  | some size =>
    match classOf insn.opcode with
    | none => .error .UnsupportedInstruction
    | some c =>
      if c = .St then
        .ok ((e.emitMovImm32 TMP_REG insn.imm).emitStore dst insn.offset TMP_REG size)
      else
        .ok (e.emitStore dst insn.offset (bpfToX64 insn.src) size)

/-- `Arm64JitCompiler::compile_insn`. -/
def compileInsn (e : Emitter) (insn : BpfInsn) (stackSize : Nat) : Except JitError Emitter :=
  if isExit insn then .ok (emitEpilogue e stackSize)
  else
    match classOf insn.opcode with
    | none => .error .UnsupportedInstruction
    | some .Alu64 => compileAlu e insn true
    | some .Alu32 => compileAlu e insn false
    | some .Jmp => compileJmp e insn stackSize
    | some .Jmp32 => compileJmp e insn stackSize
    | some .Ldx => compileLoad e insn
    | some .Stx => compileStore e insn
    | some .St => compileStore e insn
    | some .Ld => .error .UnsupportedInstruction

/-- The instruction loop of `Arm64JitCompiler::compile_program`: each
iteration marks the instruction and either consumes two slots (wide load) or
compiles one instruction. -/
def compileLoop (e : Emitter) (stackSize : Nat) : List BpfInsn → Except JitError Emitter
  | [] => .ok e
  | insn :: rest =>
    let e := e.markInsn
    if isWide insn then
      match rest with
      | [] => .error .CodegenFailed
      | next :: rest2 =>
        let imm64 := (intToU 32 insn.imm) ||| ((intToU 32 next.imm) <<< 32)
        let dst := bpfToX64 insn.dst
        compileLoop (e.emitMovImm64 dst (imm64 : Int)) stackSize rest2
    else
      match compileInsn e insn stackSize with
      | .error err => .error err
      | .ok e2 => compileLoop e2 stackSize rest

/-- Overwrite `bytes` into `code` starting at `off`
(`code[patch_offset..patch_offset + 4].copy_from_slice`). -/
def setBytes (code : List Nat) (off : Nat) (bytes : List Nat) : List Nat :=
  (List.range bytes.length).foldl (fun c k => c.set (off + k) (bytes.getD k 0)) code

/-- `Arm64JitCompiler::patch_jumps`: resolve each recorded jump displacement;
targets past the end point at the epilogue (end of code). -/
def patchJumps (e : Emitter) : List Nat :=
  e.jump_patches.foldl
    (fun code patch =>
      let targetOffset :=
        if patch.2 < e.insn_offsets.length then e.insn_offsets.getD patch.2 0 else code.length
      let rel : Int := (targetOffset : Int) - (patch.1 : Int) - 4
      setBytes code patch.1 (natToLe 4 (intToU 32 rel)))
    e.code

/-- `Arm64JitCompiler::compile_program`: prologue, per-instruction lowering,
jump patching. -/
def compileProgram (insns : List BpfInsn) : Except JitError JitProgram :=
  let e := Emitter.new
  let entry := e.offset
  let e := emitPrologue e 512
  match compileLoop e 512 insns with
  | .error err => .error err
  | .ok e2 => .ok ⟨patchJumps e2, entry⟩

/-- `JitExecutor::compile`: an empty program is a codegen failure, otherwise
run the compiler. -/
def jitCompile (insns : List BpfInsn) : Except JitError JitProgram :=
  if insns.isEmpty then .error .CodegenFailed
  else compileProgram insns

end Bpf

namespace Bpf

/-- Modelled from the spec: execution errors of the interpreter (the
interpreter module is not among the sources). -/
inductive BpfError where
  | InvalidInstruction
  | PcOutOfBounds
  | FuelExhausted
deriving DecidableEq, Repr

/-- Modelled from the spec: the execution context handed to a program — the
context pointer placed in `r1` and the byte memory the program can address. -/
structure BpfContext where
  ptr : Nat
  mem : Nat → Nat

/-- Register file: eleven 64-bit registers `r0`-`r10`. -/
def Regs := List Nat

/-- Modelled from the spec: the frame-pointer value `r10` receives (top of the
per-program 512-byte scratch stack). -/
def STACK_TOP : Nat := 0x100000000

/-- Sign of a `w`-bit value: reinterpret `x < 2 ^ w` as a signed integer. -/
def toSigned (w x : Nat) : Int :=
  if x < 2 ^ (w - 1) then (x : Int) else (x : Int) - ((2 ^ w : Nat) : Int)

/-- Byte-swap the low `w` bits of `x` (the `end` ALU operation). -/
def byteSwap (w x : Nat) : Nat :=
  ((natToLe (w / 8) x).reverse.foldr (fun b acc => b + 256 * acc) 0)

/-- Modelled from the spec: one 64-bit ALU operation (division by zero
produces zero; modulo by zero leaves the destination, the kernel convention). -/
def aluEval (w : Nat) (op : AluOp) (d s : Nat) (imm : Int) : Nat :=
  let m := 2 ^ w
  match op with
  | .Add => (d + s) % m
  | .Sub => (d + m - s % m) % m
  | .Mul => (d * s) % m
  | .Div => if s % m = 0 then 0 else (d % m) / (s % m)
  | .Or => (d ||| s) % m
  | .And => (d &&& s) % m
  | .Lsh => ((d % m) <<< (s % w)) % m
  | .Rsh => (d % m) >>> (s % w)
  | .Arsh => intToU w (toSigned w (d % m) / ((2 ^ (s % w) : Nat) : Int))
  | .Neg => (m - d % m) % m
  | .Mod => if s % m = 0 then d % m else (d % m) % (s % m)
  | .Xor => (d ^^^ s) % m
  | .Mov => s % m
  | .End => byteSwap (intToU 32 imm) (d % m) % m

/-- Modelled from the spec: jump condition evaluation over `w`-bit operands. -/
def jmpEval (w : Nat) (op : JmpOp) (d s : Nat) : Bool :=
  let d := d % 2 ^ w
  let s := s % 2 ^ w
  match op with
  | .Jeq => d == s
  | .Jne => d != s
  | .Jgt => d > s
  | .Jge => d ≥ s
  | .Jlt => d < s
  | .Jle => d ≤ s
  | .Jset => (d &&& s) != 0
  | .Jsgt => toSigned w d > toSigned w s
  | .Jsge => toSigned w d ≥ toSigned w s
  | .Jslt => toSigned w d < toSigned w s
  | .Jsle => toSigned w d ≤ toSigned w s
  | _ => false

/-- Read `n` bytes little-endian from memory. -/
def readMem (mem : Nat → Nat) (addr n : Nat) : Nat :=
  (List.range n).foldr (fun i acc => mem ((addr + i) % 2 ^ 64) + 256 * acc) 0

/-- Write `n` bytes little-endian to memory. -/
def writeMem (mem : Nat → Nat) (addr n v : Nat) : Nat → Nat :=
  fun a =>
    match (List.range n).findIdx? (fun i => (addr + i) % 2 ^ 64 == a) with
    | some i => v >>> (8 * i) &&& 0xFF
    | none => mem a

/-- Byte width of a `MemSize`. -/
def memBytes : MemSize → Nat
  | .Byte => 1
  | .Half => 2
  | .Word => 4
  | .DWord => 8

/-- Modelled from the spec: the interpreter's fetch-decode-dispatch loop
(`Interpreter::execute`; the interpreter module is not among the sources).
`fuel` bounds the number of executed instructions so the embedding is total. -/
def interpLoop (prog : List BpfInsn) : Nat → Nat → Regs → (Nat → Nat) →
    Except BpfError Nat
  | 0, _, _, _ => .error .FuelExhausted
  | fuel + 1, pc, regs, mem =>
    match prog[pc]? with
    | none => .error .PcOutOfBounds
    | some insn =>
      if isExit insn then .ok (regs.getD 0 0)
      else if isWide insn then
        match prog[pc + 1]? with
        | none => .error .InvalidInstruction
        | some next =>
          let imm64 := (intToU 32 insn.imm) ||| ((intToU 32 next.imm) <<< 32)
          interpLoop prog fuel (pc + 2) (regs.set insn.dst imm64) mem
      else
        match classOf insn.opcode with
        | none => .error .InvalidInstruction
        | some c =>
          match c with
          | .Alu64 =>
            match aluOpOf insn.opcode with
            | none => .error .InvalidInstruction
            | some op =>
              let s :=
                if sourceOf insn.opcode = SourceType.Reg then regs.getD insn.src 0
                else intToU 64 insn.imm
              let d := regs.getD insn.dst 0
              interpLoop prog fuel (pc + 1) (regs.set insn.dst (aluEval 64 op d s insn.imm)) mem
          | .Alu32 =>
            match aluOpOf insn.opcode with
            | none => .error .InvalidInstruction
            | some op =>
              let s :=
                if sourceOf insn.opcode = SourceType.Reg then regs.getD insn.src 0
                else intToU 32 insn.imm
              let d := regs.getD insn.dst 0
              -- 32-bit operations zero-extend their result
              interpLoop prog fuel (pc + 1) (regs.set insn.dst (aluEval 32 op d s insn.imm)) mem
          | .Jmp =>
            match jmpOpOf insn.opcode with
            | none => .error .InvalidInstruction
            | some .Exit => .ok (regs.getD 0 0)
            | some .Call => interpLoop prog fuel (pc + 1) (regs.set 0 0) mem
            | some .Ja =>
              let target := (pc : Int) + 1 + insn.offset
              if target < 0 then .error .PcOutOfBounds
              else interpLoop prog fuel target.toNat regs mem
            | some op =>
              let s :=
                if sourceOf insn.opcode = SourceType.Reg then regs.getD insn.src 0
                else intToU 64 insn.imm
              let d := regs.getD insn.dst 0
              if jmpEval 64 op d s then
                let target := (pc : Int) + 1 + insn.offset
                if target < 0 then .error .PcOutOfBounds
                else interpLoop prog fuel target.toNat regs mem
              else interpLoop prog fuel (pc + 1) regs mem
          | .Jmp32 =>
            match jmpOpOf insn.opcode with
            | none => .error .InvalidInstruction
            | some .Exit => .ok (regs.getD 0 0)
            | some .Call => interpLoop prog fuel (pc + 1) (regs.set 0 0) mem
            | some .Ja =>
              let target := (pc : Int) + 1 + insn.offset
              if target < 0 then .error .PcOutOfBounds
              else interpLoop prog fuel target.toNat regs mem
            | some op =>
              let s :=
                if sourceOf insn.opcode = SourceType.Reg then regs.getD insn.src 0
                else intToU 32 insn.imm
              let d := regs.getD insn.dst 0
              if jmpEval 32 op d s then
                let target := (pc : Int) + 1 + insn.offset
                if target < 0 then .error .PcOutOfBounds
                else interpLoop prog fuel target.toNat regs mem
              else interpLoop prog fuel (pc + 1) regs mem
          | .Ldx =>
            match memSizeOf insn.opcode with
            | none => .error .InvalidInstruction
            | some size =>
              let addr := intToU 64 ((regs.getD insn.src 0 : Int) + insn.offset)
              let v := readMem mem addr (memBytes size)
              interpLoop prog fuel (pc + 1) (regs.set insn.dst v) mem
          | .Stx =>
            match memSizeOf insn.opcode with
            | none => .error .InvalidInstruction
            | some size =>
              let addr := intToU 64 ((regs.getD insn.dst 0 : Int) + insn.offset)
              let mem := writeMem mem addr (memBytes size) (regs.getD insn.src 0)
              interpLoop prog fuel (pc + 1) regs mem
          | .St =>
            match memSizeOf insn.opcode with
            | none => .error .InvalidInstruction
            | some size =>
              let addr := intToU 64 ((regs.getD insn.dst 0 : Int) + insn.offset)
              let mem := writeMem mem addr (memBytes size) (intToU 64 insn.imm)
              interpLoop prog fuel (pc + 1) regs mem
          | .Ld => .error .InvalidInstruction

/-- Modelled from the spec: the initial register file — `r1` holds the context
pointer, `r10` the frame pointer, the rest are zero. -/
def initRegs (ctx : BpfContext) : Regs :=
  [0, ctx.ptr, 0, 0, 0, 0, 0, 0, 0, 0, STACK_TOP]

/-- Modelled from the spec: `Interpreter::execute` — run the program from
instruction 0 on a fresh register file. -/
def interpExecute (fuel : Nat) (prog : List BpfInsn) (ctx : BpfContext) :
    Except BpfError Nat :=
  interpLoop prog fuel 0 (initRegs ctx) ctx.mem

/-- `JitExecutor::execute` from `execution/jit/mod.rs`: compile, then — whether
compilation succeeded or failed — run the interpreter on the same program and
context (the compiled buffer is never invoked). -/
def jitExecutorExecute (fuel : Nat) (prog : List BpfInsn) (ctx : BpfContext) :
    Except BpfError Nat :=
  match jitCompile prog with
  | .ok _ => interpExecute fuel prog ctx
  | .error _ => interpExecute fuel prog ctx

end Bpf

/-- Decidable equality for `Except` results, used to evaluate the embedded
operations on concrete inputs. -/
instance {e a : Type} [DecidableEq e] [DecidableEq a] : DecidableEq (Except e a) := fun x y =>
  match x, y with
  | .ok v, .ok w =>
    if h : v = w then isTrue (by rw [h]) else isFalse (fun hc => h (Except.ok.inj hc))
  | .error v, .error w =>
    if h : v = w then isTrue (by rw [h]) else isFalse (fun hc => h (Except.error.inj hc))
  | .ok _, .error _ => isFalse (fun hc => Except.noConfusion hc)
  | .error _, .ok _ => isFalse (fun hc => Except.noConfusion hc)

/-! Helper lemmas shared by the claim theorems. -/

theorem leU64_u64ToLe (t : Nat) (ht : t < 2 ^ 64) : Signing.leU64 (Signing.u64ToLe t) = t := by
  have hrw : ∀ (x k : Nat), x >>> k &&& 0xFF = x / 2 ^ k % 2 ^ 8 := by
    intro x k
    rw [Nat.shiftRight_eq_div_pow]
    have : (0xFF : Nat) = 2 ^ 8 - 1 := by norm_num
    rw [this, Nat.and_pow_two_sub_one_eq_mod]
  simp only [Signing.u64ToLe, Signing.leU64, List.range_succ, List.map_append, List.map_cons,
    List.map_nil, List.foldr_append, List.foldr_cons, List.foldr_nil, List.range_zero,
    List.append_nil, List.nil_append, hrw]
  norm_num
  omega

theorem indexOf?_eq_none {α : Type} [DecidableEq α] (l : List α) (a : α)
    (h : a ∉ l) : l.indexOf? a = none := by
  unfold List.indexOf?
  rw [List.findIdx?_eq_none_iff]
  intro x hx
  simp only [beq_eq_false_iff_ne, ne_eq]
  intro he
  exact h (he ▸ hx)

theorem indexOf?_append_singleton {α : Type} [DecidableEq α] (l : List α) (a : α)
    (h : a ∉ l) : (l ++ [a]).indexOf? a = some l.length := by
  unfold List.indexOf?
  rw [List.findIdx?_append]
  have h1 : l.findIdx? (· == a) = none := by
    rw [List.findIdx?_eq_none_iff]
    intro x hx
    simp only [beq_eq_false_iff_ne, ne_eq]
    intro he
    exact h (he ▸ hx)
  rw [h1]
  simp

theorem eraseIdx_append_singleton {α : Type} (l : List α) (a : α) :
    (l ++ [a]).eraseIdx l.length = l := by
  rw [List.eraseIdx_append_of_length_le (Nat.le_refl _)]
  simp

/-! The claim theorems. -/

/-- C3: `ProgramHash::compute` agrees with the NIST SHA3-256 test vectors —
the hash of the empty string is `a7ffc6f8…434a` and the hash of the three
bytes "abc" is `3a985da7…1532`. -/
theorem C3_sha3_nist_vectors :
    Signing.ProgramHash.compute [] =
      [0xa7, 0xff, 0xc6, 0xf8, 0xbf, 0x1e, 0xd7, 0x66, 0x51, 0xc1, 0x47, 0x56, 0xa0, 0x61,
       0xd6, 0x62, 0xf5, 0x80, 0xff, 0x4d, 0xe4, 0x3b, 0x49, 0xfa, 0x82, 0xd8, 0x0a, 0x4b,
       0x80, 0xf8, 0x43, 0x4a] ∧
    Signing.ProgramHash.compute [0x61, 0x62, 0x63] =
      [0x3a, 0x98, 0x5d, 0xa7, 0x4f, 0xe2, 0x25, 0xb2, 0x04, 0x5c, 0x17, 0x2d, 0x6b, 0xd3,
       0x90, 0xbd, 0x85, 0x5f, 0x08, 0x6e, 0x3e, 0x9d, 0x52, 0x5b, 0x46, 0xbf, 0xe2, 0x45,
       0x11, 0x43, 0x15, 0x32] := by
  constructor <;> decide

/-- C2: `JitExecutor::execute` returns a result identical to
`Interpreter::execute` on the same program and context — in the source both
branches of the compile `match` invoke the interpreter, so the results agree
whether compilation succeeds or fails. -/
theorem C2_jit_equals_interpreter (fuel : Nat) (prog : List Bpf.BpfInsn)
    (ctx : Bpf.BpfContext) :
    Bpf.jitExecutorExecute fuel prog ctx = Bpf.interpExecute fuel prog ctx := by
  unfold Bpf.jitExecutorExecute
  cases Bpf.jitCompile prog <;> rfl

/-- C7 counterexample: the round-trip fails as stated for a header whose
version byte is not the supported `SIGNING_VERSION = 1` — `to_bytes` writes
version 2 and `from_bytes` rejects it with `UnsupportedVersion`, so parsing
does not succeed for every header value. -/
theorem C7_counterexample_version :
    Signing.SignedProgramHeader.fromBytes
        (Signing.SignedProgramHeader.toBytes
          ⟨2, 0, List.replicate 32 0, List.replicate 64 0, List.replicate 8 0, 0⟩) =
      .error (.UnsupportedVersion 2) := by
  decide

/-- C7 (amended): for every well-formed header whose version field is the
supported `SIGNING_VERSION`, `from_bytes (to_bytes h)` succeeds and returns a
header whose every field (version, flags, program hash, signature, signer id,
timestamp) equals the corresponding field of `h`. -/
theorem C7_header_roundtrip (h : Signing.SignedProgramHeader)
    (hwf : h.WF) (hv : h.version = Signing.SIGNING_VERSION) :
    Signing.SignedProgramHeader.fromBytes (Signing.SignedProgramHeader.toBytes h) = .ok h := by
  obtain ⟨hv8, hf8, hh32, hs64, hid8, ht64⟩ := hwf
  have hts : (Signing.u64ToLe h.timestamp).length = 8 := by
    simp [Signing.u64ToLe]
  have hL : Signing.SignedProgramHeader.toBytes h =
      0x52 :: 0x42 :: 0x50 :: 0x46 :: h.version :: h.flags :: 0 :: 0 ::
        (h.program_hash ++ (h.signature ++ (h.signer_id ++ Signing.u64ToLe h.timestamp))) := by
    simp [Signing.SignedProgramHeader.toBytes, Signing.SIGNED_PROGRAM_MAGIC, List.append_assoc]
  rw [Signing.SignedProgramHeader.fromBytes, hL]
  have hlen : (0x52 :: 0x42 :: 0x50 :: 0x46 :: h.version :: h.flags :: 0 :: 0 ::
      (h.program_hash ++ (h.signature ++ (h.signer_id ++ Signing.u64ToLe h.timestamp)))).length =
      120 := by
    simp [List.length_append, hh32, hs64, hid8, hts]
  rw [hlen]
  norm_num [Signing.HEADER_SIZE, Signing.SIGNED_PROGRAM_MAGIC]
  rw [if_pos hv]
  rw [hh32, hs64, hid8, hts]
  norm_num
  rw [List.take_left' hh32, List.drop_left' hh32, List.take_left' hs64]
  have h96 : List.drop 96
      (h.program_hash ++ (h.signature ++ (h.signer_id ++ Signing.u64ToLe h.timestamp))) =
      h.signer_id ++ Signing.u64ToLe h.timestamp := by
    rw [show h.program_hash ++ (h.signature ++ (h.signer_id ++ Signing.u64ToLe h.timestamp)) =
        (h.program_hash ++ h.signature) ++ (h.signer_id ++ Signing.u64ToLe h.timestamp) by
      simp [List.append_assoc]]
    exact List.drop_left' (by simp [hh32, hs64])
  have h104 : List.drop 104
      (h.program_hash ++ (h.signature ++ (h.signer_id ++ Signing.u64ToLe h.timestamp))) =
      Signing.u64ToLe h.timestamp := by
    rw [show h.program_hash ++ (h.signature ++ (h.signer_id ++ Signing.u64ToLe h.timestamp)) =
        ((h.program_hash ++ h.signature) ++ h.signer_id) ++ Signing.u64ToLe h.timestamp by
      simp [List.append_assoc]]
    exact List.drop_left' (by simp [hh32, hs64, hid8])
  rw [h96, h104, List.take_left' hid8, List.take_of_length_le (le_of_eq hts),
    leU64_u64ToLe h.timestamp ht64]

/-- C7 witness: the round-trip theorem applied to a concrete version-1 header. -/
theorem C7_header_roundtrip_witness :
    (Signing.SignedProgramHeader.WF
        ⟨1, 7, List.replicate 32 0xAB, List.replicate 64 0x2A,
          [1, 2, 3, 4, 5, 6, 7, 8], 1700000000⟩ ∧
      (1 : Nat) = Signing.SIGNING_VERSION) ∧
    Signing.SignedProgramHeader.fromBytes
        (Signing.SignedProgramHeader.toBytes
          ⟨1, 7, List.replicate 32 0xAB, List.replicate 64 0x2A,
            [1, 2, 3, 4, 5, 6, 7, 8], 1700000000⟩) =
      .ok ⟨1, 7, List.replicate 32 0xAB, List.replicate 64 0x2A,
        [1, 2, 3, 4, 5, 6, 7, 8], 1700000000⟩ :=
  ⟨⟨by decide, by decide⟩, C7_header_roundtrip _ (by decide) (by decide)⟩

/-- C10: the `BPF_PROG_LOAD` arm of `sys_bpf` returns `-1` without invoking
`load_raw_program` whenever the requested instruction count is 0 or greater
than 4096 (for every attribute pointer and manager outcome), and an
instruction count in `1..=4096` with a non-null instruction pointer passes the
validity check. -/
theorem C10_prog_load_insn_count (attrPtr : Nat) (attr : Syscall.BpfAttr)
    (loadResult : Option (Option Nat)) :
    ((attr.insn_cnt = 0 ∨ attr.insn_cnt > 4096) →
      Syscall.sysBpfProgLoad attrPtr attr loadResult = (-1, false)) ∧
    (1 ≤ attr.insn_cnt → attr.insn_cnt ≤ 4096 → attr.insns ≠ 0 →
      Syscall.progLoadInsnsValid attr.insns attr.insn_cnt = true) := by
  constructor
  · intro hcnt
    unfold Syscall.sysBpfProgLoad Syscall.progLoadInsnsValid
    have hbad : (attr.insns == 0 || attr.insn_cnt == 0 || decide (attr.insn_cnt > 4096)) =
        true := by
      rcases hcnt with hc | hc
      · simp [hc]
      · simp [hc]
    by_cases hz : attrPtr = 0
    · simp [hz]
    · simp [hz, hbad]
  · intro h1 h2 h3
    unfold Syscall.progLoadInsnsValid
    have : ¬(attr.insn_cnt = 0) := by omega
    have : ¬(attr.insn_cnt > 4096) := by omega
    simp_all

/-- C10 witness: the two halves at concrete attributes — a zero and an
over-limit count are rejected with `-1` and no load, and count 1 with a
non-null pointer passes the check. -/
theorem C10_prog_load_insn_count_witness :
    Syscall.sysBpfProgLoad 4096 ⟨0, 0, 8, 0, 0, 0, 0, 0, 0⟩ (some (some 7)) = (-1, false) ∧
    Syscall.sysBpfProgLoad 4096 ⟨0, 4097, 8, 0, 0, 0, 0, 0, 0⟩ (some (some 7)) = (-1, false) ∧
    Syscall.progLoadInsnsValid 8 1 = true :=
  ⟨(C10_prog_load_insn_count 4096 ⟨0, 0, 8, 0, 0, 0, 0, 0, 0⟩ (some (some 7))).1
      (Or.inl rfl),
    (C10_prog_load_insn_count 4096 ⟨0, 4097, 8, 0, 0, 0, 0, 0, 0⟩ (some (some 7))).1
      (Or.inr (by decide)),
    (C10_prog_load_insn_count 4096 ⟨0, 1, 8, 0, 0, 0, 0, 0, 0⟩ (some (some 7))).2
      (by decide) (by decide) (by decide)⟩

/-- C4: the claim fails on the code — before dereferencing the attribute
pointer, `sys_bpf` checks only that it is non-null, while the
`copy_from_userspace` validator (which `sys_bpf` never calls) additionally
requires the userspace range and alignment. A kernel-half address
(`0xFFFF_8000_0000_0000`) and an unaligned address (1) both pass the only
check `sys_bpf` performs and are dereferenced, yet fail validation. -/
theorem C4_pointer_validation_missing :
    Syscall.sysBpfAttrPtrCheck 0xFFFF800000000000 = true ∧
    Syscall.copyFromUserspaceValid 0xFFFF800000000000 48 8 = false ∧
    Syscall.sysBpfAttrPtrCheck 1 = true ∧
    Syscall.copyFromUserspaceValid 1 48 8 = false := by
  decide

/-- C8: when the consumer position is below the producer position and the
record header at `consumer_pos & mask` has the busy bit (bit 31) set,
`read_event` returns `None` and leaves the consumer position unchanged. -/
theorem C8_busy_record_aborts (c : RingBuf.Consumer) (consPos prodPos : Nat)
    (hlt : consPos < prodPos)
    (hbusy : RingBuf.isBusy (RingBuf.readLenWord c (consPos &&& (c.dataSize - 1))) = true) :
    RingBuf.readEvent c consPos prodPos = (none, consPos) := by
  rw [RingBuf.readEvent]
  simp [hlt, hbusy]

/-- C8 witness: a concrete 8-byte ring whose record header has bit 31 set
(byte 3 is `0x80`); with consumer position 0 and producer position 8 the read
aborts and the position stays 0. -/
theorem C8_busy_record_aborts_witness :
    RingBuf.readEvent ⟨8, fun a => if a = 3 then 0x80 else 0⟩ 0 8 = (none, 0) :=
  C8_busy_record_aborts ⟨8, fun a => if a = 3 then 0x80 else 0⟩ 0 8 (by decide) (by decide)

/-- C9 counterexample: attach-then-detach does not return the registry to the
pre-attach state as claimed, because the monotonic `next_id` counter has
advanced: from the fresh PWM registry (next id 1), attach hands out id 1 and
detach removes it, but the result carries next id 2. -/
theorem C9_counterexample_next_id :
    Attach.PwmAttach.detach (Attach.PwmAttach.attach ⟨[0x70], 0, [], 1⟩).2
        (Attach.PwmAttach.attach ⟨[0x70], 0, [], 1⟩).1 ≠
      .ok ⟨[0x70], 0, [], 1⟩ := by
  decide

/-- C9 (amended): for every PWM and GPIO attach-point state whose attached ids
are all below the next-id counter (true in every reachable state), attach
followed by detach of the returned fresh id restores the attached-id list
exactly (only the monotonic counter has advanced by one), and a second detach
of the same id fails with resource-not-found. -/
theorem C9_attach_detach_roundtrip (p : Attach.PwmAttach) (g : Attach.GpioAttach)
    (hp : ∀ i ∈ p.attached, i.val < p.next_id)
    (hg : ∀ i ∈ g.attached, i.val < g.next_id) :
    (Attach.PwmAttach.detach (Attach.PwmAttach.attach p).2 (Attach.PwmAttach.attach p).1 =
        .ok ⟨p.chip, p.channel, p.attached, p.next_id + 1⟩ ∧
      Attach.PwmAttach.detach ⟨p.chip, p.channel, p.attached, p.next_id + 1⟩
          (Attach.PwmAttach.attach p).1 =
        .error .ResourceNotFound) ∧
    (Attach.GpioAttach.detach (Attach.GpioAttach.attach g).2 (Attach.GpioAttach.attach g).1 =
        .ok ⟨g.chip, g.line, g.edge, g.attached, g.next_id + 1⟩ ∧
      Attach.GpioAttach.detach ⟨g.chip, g.line, g.edge, g.attached, g.next_id + 1⟩
          (Attach.GpioAttach.attach g).1 =
        .error .ResourceNotFound) := by
  have hnp : Attach.AttachId.mk p.next_id ∉ p.attached := by
    intro hm
    exact absurd (hp _ hm) (by simp)
  have hng : Attach.AttachId.mk g.next_id ∉ g.attached := by
    intro hm
    exact absurd (hg _ hm) (by simp)
  refine ⟨⟨?_, ?_⟩, ?_, ?_⟩
  · unfold Attach.PwmAttach.attach Attach.PwmAttach.detach
    simp only
    rw [indexOf?_append_singleton _ _ hnp]
    simp only
    rw [eraseIdx_append_singleton]
  · unfold Attach.PwmAttach.attach Attach.PwmAttach.detach
    simp only
    rw [indexOf?_eq_none _ _ hnp]
  · unfold Attach.GpioAttach.attach Attach.GpioAttach.detach
    simp only
    rw [indexOf?_append_singleton _ _ hng]
    simp only
    rw [eraseIdx_append_singleton]
  · unfold Attach.GpioAttach.attach Attach.GpioAttach.detach
    simp only
    rw [indexOf?_eq_none _ _ hng]

/-- C9 witness: the amended round-trip at concrete fresh PWM and GPIO
registries. -/
theorem C9_attach_detach_roundtrip_witness :
    (Attach.PwmAttach.detach (Attach.PwmAttach.attach ⟨[0x70], 0, [], 1⟩).2
        (Attach.PwmAttach.attach ⟨[0x70], 0, [], 1⟩).1 =
      .ok ⟨[0x70], 0, [], 2⟩) ∧
    (Attach.GpioAttach.detach (Attach.GpioAttach.attach ⟨[0x67], 17, .Rising, [], 1⟩).2
        (Attach.GpioAttach.attach ⟨[0x67], 17, .Rising, [], 1⟩).1 =
      .ok ⟨[0x67], 17, .Rising, [], 2⟩) :=
  ⟨(C9_attach_detach_roundtrip ⟨[0x70], 0, [], 1⟩ ⟨[0x67], 17, .Rising, [], 1⟩
      (by simp) (by simp)).1.1,
    (C9_attach_detach_roundtrip ⟨[0x70], 0, [], 1⟩ ⟨[0x67], 17, .Rising, [], 1⟩
      (by simp) (by simp)).2.1⟩

namespace Phys

theorem firstFreeIdx_some {l : List FrameState} {i : Nat}
    (h : firstFreeIdx l = some i) :
    l[i]? = some FrameState.Free ∧ ∀ (k : Nat), k < i → l[k]? ≠ some FrameState.Free := by
  induction l generalizing i with
  | nil => simp [firstFreeIdx] at h
  | cons f rest ih =>
    by_cases hf : f = .Free
    · simp [firstFreeIdx, hf] at h
      subst h
      simp [hf]
    · simp only [firstFreeIdx, if_neg hf] at h
      match hr : firstFreeIdx rest with
      | none => rw [hr] at h; simp at h
      | some j =>
        rw [hr] at h
        simp at h
        subst h
        obtain ⟨h1, h2⟩ := ih hr
        refine ⟨by simpa using h1, ?_⟩
        intro k hk
        match k with
        | 0 =>
          simp only [List.getElem?_cons_zero]
          intro hc
          exact hf (by injection hc)
        | k + 1 =>
          simp only [List.getElem?_cons_succ]
          exact h2 k (by omega)

theorem firstFreeIdx_none {l : List FrameState}
    (h : firstFreeIdx l = none) : ∀ (k : Nat), l[k]? ≠ some FrameState.Free := by
  induction l with
  | nil => intro k; simp
  | cons f rest ih =>
    by_cases hf : f = .Free
    · simp [firstFreeIdx, hf] at h
    · simp only [firstFreeIdx, if_neg hf] at h
      match hr : firstFreeIdx rest with
      | some j => rw [hr] at h; simp at h
      | none =>
        intro k
        match k with
        | 0 =>
          simp only [List.getElem?_cons_zero]
          intro hc
          exact hf (by injection hc)
        | k + 1 =>
          simp only [List.getElem?_cons_succ]
          exact ih hr k

theorem findFirstFreeAux_some {rs : List MemoryRegion} {d r i : Nat}
    (h : findFirstFreeAux rs d = some (r, i)) :
    d ≤ r ∧ ((rs[r - d]?).bind fun reg => reg.frames[i]?) = some FrameState.Free ∧
      ∀ (r' i' : Nat), d ≤ r' → lexLt (r', i') (r, i) →
        ((rs[r' - d]?).bind fun reg => reg.frames[i']?) ≠ some FrameState.Free := by
  induction rs generalizing d with
  | nil => simp [findFirstFreeAux] at h
  | cons reg rest ih =>
    match hf : firstFreeIdx reg.frames with
    | some j =>
      rw [findFirstFreeAux, hf] at h
      injection h with h'
      injection h' with h1 h2
      subst h1
      subst h2
      obtain ⟨hj1, hj2⟩ := firstFreeIdx_some hf
      refine ⟨le_refl _, ?_, ?_⟩
      · simp [hj1]
      · intro r' i' hd hlt
        rcases hlt with hlt | ⟨heq, hlt⟩
        · omega
        · have : r' = d := heq
          subst this
          simp only [Nat.sub_self, List.getElem?_cons_zero, Option.bind_some]
          exact hj2 i' hlt
    | none =>
      rw [findFirstFreeAux, hf] at h
      obtain ⟨hd, h1, h2⟩ := ih h
      have hdr : d ≤ r := by omega
      refine ⟨hdr, ?_, ?_⟩
      · have : r - d = (r - (d + 1)) + 1 := by omega
        rw [this]
        simpa using h1
      · intro r' i' hd' hlt
        by_cases hr' : r' = d
        · subst hr'
          simp only [Nat.sub_self, List.getElem?_cons_zero, Option.bind_some]
          exact firstFreeIdx_none hf i'
        · have hd1 : d + 1 ≤ r' := by omega
          have := h2 r' i' hd1 hlt
          have hidx : r' - d = (r' - (d + 1)) + 1 := by omega
          rw [hidx]
          simpa using this

theorem findFirstFreeAux_none {rs : List MemoryRegion} {d : Nat}
    (h : findFirstFreeAux rs d = none) :
    ∀ (r' i' : Nat), d ≤ r' → ((rs[r' - d]?).bind fun reg => reg.frames[i']?) ≠ some FrameState.Free := by
  induction rs generalizing d with
  | nil => intro r' i' _; simp
  | cons reg rest ih =>
    match hf : firstFreeIdx reg.frames with
    | some j => rw [findFirstFreeAux, hf] at h; simp at h
    | none =>
      rw [findFirstFreeAux, hf] at h
      intro r' i' hd'
      by_cases hr' : r' = d
      · subst hr'
        simp only [Nat.sub_self, List.getElem?_cons_zero, Option.bind_some]
        exact firstFreeIdx_none hf i'
      · have hd1 : d + 1 ≤ r' := by omega
        have := ih h r' i' hd1
        have hidx : r' - d = (r' - (d + 1)) + 1 := by omega
        rw [hidx]
        simpa using this

theorem new_cursor_inv (regions : List MemoryRegion) : CursorInv (new regions) := by
  constructor
  · rintro ⟨r, i⟩ hl
    replace hl : findFirstFreeAux regions 0 = some (r, i) := hl
    obtain ⟨_, h1, h2⟩ := findFirstFreeAux_some hl
    constructor
    · simpa [stateAt, regState] using h1
    · intro l' hlt
      have := h2 l'.1 l'.2 (Nat.zero_le _) hlt
      simpa [stateAt, regState] using this
  · intro hn l'
    replace hn : findFirstFreeAux regions 0 = none := hn
    have := findFirstFreeAux_none hn l'.1 l'.2 (Nat.zero_le _)
    simpa [stateAt, regState] using this

theorem getElem?_drop_shift (rs : List MemoryRegion) (d r' : Nat) (h : d ≤ r') :
    (rs.drop d)[r' - d]? = rs[r']? := by
  rw [List.getElem?_drop]
  congr 1
  omega

theorem update_first_free_inv (s : PhysicalMemoryManager) (r0 j : Nat)
    (hpre : ∀ l', lexLt l' (r0, j) → stateAt s l' ≠ some FrameState.Free) :
    CursorInv (update_first_free s r0 j) := by
  have hgen : ∀ (x : Option (Nat × Nat)),
      (∀ l, x = some l → stateAt s l = some FrameState.Free ∧
        ∀ l', lexLt l' l → stateAt s l' ≠ some FrameState.Free) →
      (x = none → ∀ l', stateAt s l' ≠ some FrameState.Free) →
      CursorInv { s with first_free := x } := by
    intro x h1 h2
    exact ⟨fun l hl => h1 l hl, fun hn => h2 hn⟩
  -- the subsequent-regions search, shared by all `inCurrent = none` outcomes
  have hrest : (∀ (i' : Nat), j ≤ i' →
        ((s.regions[r0]?).bind fun reg => reg.frames[i']?) ≠ some FrameState.Free) →
      CursorInv { s with
        first_free := findFirstFreeAux (s.regions.drop (r0 + 1)) (r0 + 1) } := by
    intro hmid
    refine hgen _ ?_ ?_
    · rintro ⟨r, i⟩ hf
      obtain ⟨hd, h1, h2⟩ := findFirstFreeAux_some hf
      rw [getElem?_drop_shift _ _ _ hd] at h1
      constructor
      · exact h1
      · intro l' hlt
        rcases Nat.lt_or_ge l'.1 (r0 + 1) with hcase | hcase
        · by_cases hr0 : l'.1 = r0
          · rcases Nat.lt_or_ge l'.2 j with hj | hj
            · exact hpre l' (Or.inr ⟨hr0, hj⟩)
            · have := hmid l'.2 hj
              unfold stateAt regState
              rw [hr0]
              exact this
          · have : l'.1 < r0 := by omega
            exact hpre l' (Or.inl this)
        · have := h2 l'.1 l'.2 hcase hlt
          rw [getElem?_drop_shift _ _ _ hcase] at this
          exact this
    · intro hf l'
      rcases Nat.lt_or_ge l'.1 (r0 + 1) with hcase | hcase
      · by_cases hr0 : l'.1 = r0
        · rcases Nat.lt_or_ge l'.2 j with hj | hj
          · exact hpre l' (Or.inr ⟨hr0, hj⟩)
          · have := hmid l'.2 hj
            unfold stateAt regState
            rw [hr0]
            exact this
        · have : l'.1 < r0 := by omega
          exact hpre l' (Or.inl this)
      · have := findFirstFreeAux_none hf l'.1 l'.2 hcase
        rw [getElem?_drop_shift _ _ _ hcase] at this
        exact this
  unfold update_first_free
  match hreg : s.regions[r0]? with
  | none =>
    simp only
    exact hrest (by intro i' _; simp [hreg])
  | some region =>
    simp only
    by_cases hjlen : j < region.frames.length
    · rw [if_pos hjlen]
      match hidx : firstFreeIdx (region.frames.drop j) with
      | some idx =>
        simp only [Option.map_some']
        obtain ⟨h1, h2⟩ := firstFreeIdx_some hidx
        rw [List.getElem?_drop] at h1
        refine hgen _ ?_ ?_
        · intro l hl
          injection hl with hl'
          subst hl'
          constructor
          · unfold stateAt regState
            simp [hreg, h1]
          · intro l' hlt
            rcases hlt with hlt | ⟨heq, hlt⟩
            · exact hpre l' (Or.inl hlt)
            · rcases Nat.lt_or_ge l'.2 j with hj | hj
              · exact hpre l' (Or.inr ⟨heq, hj⟩)
              · have h3 := h2 (l'.2 - j) (by omega)
                rw [List.getElem?_drop] at h3
                have hji : j + (l'.2 - j) = l'.2 := by omega
                rw [hji] at h3
                unfold stateAt regState
                rw [heq]
                simp [hreg]
                intro hc
                rw [hc] at h3
                exact h3 rfl
        · intro hl
          exact Option.noConfusion hl
      | none =>
        simp only [Option.map_none']
        refine hrest ?_
        intro i' hj
        simp only [hreg, Option.some_bind]
        have := firstFreeIdx_none hidx (i' - j)
        rw [List.getElem?_drop] at this
        have hji : j + (i' - j) = i' := by omega
        rw [hji] at this
        exact this
    · rw [if_neg hjlen]
      refine hrest ?_
      intro i' hj
      simp only [hreg, Option.some_bind]
      have : region.frames.length ≤ i' := by omega
      simp [List.getElem?_eq_none this]

theorem findFrameLocationAux_some {rs : List MemoryRegion} {d addr r i : Nat}
    (h : findFrameLocationAux rs d addr = some (r, i)) :
    d ≤ r ∧ ∃ reg, rs[r - d]? = some reg ∧ i < reg.frames.length := by
  induction rs generalizing d with
  | nil => simp [findFrameLocationAux] at h
  | cons reg rest ih =>
    match hf : reg.frame_index addr with
    | some j =>
      rw [findFrameLocationAux, hf] at h
      injection h with h'
      injection h' with h1 h2
      subst h1
      subst h2
      refine ⟨le_refl _, reg, by simp, ?_⟩
      unfold MemoryRegion.frame_index at hf
      split at hf
      · injection hf with hf'
        subst hf'
        rename_i hcond
        have h4 : (0 : Nat) < 4096 := by norm_num
        rw [Nat.div_lt_iff_lt_mul h4]
        omega
      · exact absurd hf (by simp)
    | none =>
      rw [findFrameLocationAux, hf] at h
      obtain ⟨hd, reg2, h1, h2⟩ := ih h
      have hdr : d ≤ r := by omega
      refine ⟨hdr, reg2, ?_, h2⟩
      have : r - d = (r - (d + 1)) + 1 := by omega
      rw [this]
      simpa using h1

theorem stateAt_set (s : PhysicalMemoryManager) (r i : Nat) (region : MemoryRegion)
    (hreg : s.regions[r]? = some region) (hi : i < region.frames.length)
    (v : FrameState) (ff : Option (Nat × Nat)) (l : Nat × Nat) :
    stateAt ⟨s.regions.set r { region with frames := region.frames.set i v }, ff⟩ l =
      if l.1 = r ∧ l.2 = i then some v else stateAt s l := by
  have hrlen : r < s.regions.length := by
    by_contra hcon
    rw [List.getElem?_eq_none (by omega)] at hreg
    exact Option.noConfusion hreg
  unfold stateAt regState
  by_cases hr : l.1 = r
  · subst hr
    simp only [List.getElem?_set_self hrlen, Option.some_bind, hreg]
    by_cases hil : l.2 = i
    · subst hil
      simp [List.getElem?_set_self hi]
    · simp [List.getElem?_set_ne (fun hc => hil hc.symm), hil]
  · simp [List.getElem?_set_ne (fun hc => hr hc.symm), hr]

theorem dealloc4k_cases (s : PhysicalMemoryManager) (addr : Nat) :
    (deallocate_frame_4k s addr).2 = s ∨
    ∃ r i region, find_frame_location s.regions addr = some (r, i) ∧
      s.regions[r]? = some region ∧ i < region.frames.length ∧
      region.frames.getD i .Unusable = .Allocated ∧
      (deallocate_frame_4k s addr).2 =
        ⟨s.regions.set r { region with frames := region.frames.set i .Free },
          if (match s.first_free with
              | some (fr, fi) => decide (r < fr ∨ (r = fr ∧ i < fi))
              | none => true) = true
          then some (r, i) else s.first_free⟩ := by
  unfold deallocate_frame_4k
  split
  · exact Or.inl rfl
  rename_i r i hloc
  split
  · exact Or.inl rfl
  rename_i region hreg
  split
  · rename_i hall
    right
    refine ⟨r, i, region, hloc, hreg, ?_, hall, rfl⟩
    obtain ⟨_, reg2, hr2, hi2⟩ := findFrameLocationAux_some hloc
    simp only [Nat.sub_zero] at hr2
    rw [hreg] at hr2
    injection hr2 with hr2'
    subst hr2'
    exact hi2
  · exact Or.inl rfl

theorem lexLt_trans {a b c : Nat × Nat} (h1 : lexLt a b) (h2 : lexLt b c) : lexLt a c := by
  simp only [lexLt] at h1 h2 ⊢
  omega

theorem cursorInv_intro (s : PhysicalMemoryManager)
    (h1 : ∀ l, s.first_free = some l →
      stateAt s l = some FrameState.Free ∧
        ∀ l', lexLt l' l → stateAt s l' ≠ some FrameState.Free)
    (h2 : s.first_free = none → ∀ l', stateAt s l' ≠ some FrameState.Free) :
    CursorInv s :=
  ⟨h1, h2⟩

theorem cursorInv_elim_some {s : PhysicalMemoryManager} {l : Nat × Nat}
    (h : CursorInv s) (hff : s.first_free = some l) :
    stateAt s l = some FrameState.Free ∧
      ∀ l', lexLt l' l → stateAt s l' ≠ some FrameState.Free :=
  h.1 l hff

theorem cursorInv_elim_none {s : PhysicalMemoryManager}
    (h : CursorInv s) (hff : s.first_free = none) :
    ∀ l', stateAt s l' ≠ some FrameState.Free :=
  h.2 hff

theorem dealloc4k_inv (s : PhysicalMemoryManager) (addr : Nat)
    (hinv : CursorInv s) : CursorInv (deallocate_frame_4k s addr).2 := by
  rcases dealloc4k_cases s addr with heq | ⟨r, i, region, hloc, hreg, hi, hall, heq⟩
  · rw [heq]; exact hinv
  rw [heq]
  have hold : stateAt s (r, i) = some FrameState.Allocated := by
    unfold stateAt regState
    simp only [hreg, Option.some_bind]
    rw [List.getElem?_eq_getElem hi]
    rw [List.getD_eq_getElem?_getD, List.getElem?_eq_getElem hi] at hall
    simpa using hall
  have hst := stateAt_set s r i region hreg hi FrameState.Free
  refine cursorInv_intro _ ?_ ?_
  · intro l hl
    simp only at hl
    by_cases hb : (match s.first_free with
        | some (fr, fi) => decide (r < fr ∨ (r = fr ∧ i < fi))
        | none => true) = true
    · rw [if_pos hb] at hl
      injection hl with hl'
      subst hl'
      constructor
      · rw [hst]
        simp
      · intro l' hlt
        rw [hst]
        have hne : ¬(l'.1 = r ∧ l'.2 = i) := by
          rintro ⟨e1, e2⟩
          simp only [lexLt] at hlt
          simp only [e1, e2] at hlt
          omega
        rw [if_neg hne]
        match hff : s.first_free with
        | none => exact cursorInv_elim_none hinv hff l'
        | some ff =>
          rw [hff] at hb
          rw [show ff = (ff.1, ff.2) from rfl] at hb
          simp only [decide_eq_true_eq] at hb
          have hbb : lexLt (r, i) ff := by
            simp only [lexLt]
            omega
          exact (cursorInv_elim_some hinv hff).2 l' (lexLt_trans hlt hbb)
    · rw [if_neg hb] at hl
      match hff : s.first_free with
      | none =>
        rw [hff] at hl
        exact Option.noConfusion hl
      | some ff =>
        rw [hff] at hl
        have hlf : l = ff := by
          injection hl with h'
          exact h'.symm
        subst hlf
        rw [hff] at hb
        rw [show l = (l.1, l.2) from rfl] at hb
        simp only [decide_eq_true_eq] at hb
        obtain ⟨hfree, hnone⟩ := cursorInv_elim_some hinv hff
        have hlne : ¬(l.1 = r ∧ l.2 = i) := by
          rintro ⟨e1, e2⟩
          rw [show l = (l.1, l.2) from rfl, e1, e2] at hfree
          rw [hold] at hfree
          exact FrameState.noConfusion (Option.some.inj hfree)
        have hlex : lexLt l (r, i) := by
          simp only [lexLt]
          rcases Nat.lt_trichotomy l.1 r with hc | hc | hc
          · exact Or.inl hc
          · refine Or.inr ⟨hc, ?_⟩
            rcases Nat.lt_trichotomy l.2 i with hd | hd | hd
            · exact hd
            · exact absurd ⟨hc, hd⟩ hlne
            · exact absurd (Or.inr ⟨hc.symm, hd⟩) hb
          · exact absurd (Or.inl hc) hb
        constructor
        · rw [hst, if_neg hlne]
          exact hfree
        · intro l' hlt
          rw [hst]
          have hne : ¬(l'.1 = r ∧ l'.2 = i) := by
            rintro ⟨e1, e2⟩
            have := lexLt_trans hlt hlex
            simp only [lexLt, e1, e2] at this
            omega
          rw [if_neg hne]
          exact hnone l' hlt
  · intro hnone'
    simp only at hnone'
    by_cases hb : (match s.first_free with
        | some (fr, fi) => decide (r < fr ∨ (r = fr ∧ i < fi))
        | none => true) = true
    · rw [if_pos hb] at hnone'
      exact Option.noConfusion hnone'
    · rw [if_neg hb] at hnone'
      rw [hnone'] at hb
      simp at hb

theorem foldl_dealloc2MStep_inv (addr : Nat) (l : List Nat) (acc : Bool × PhysicalMemoryManager)
    (hinv : CursorInv acc.2) : CursorInv ((l.foldl (dealloc2MStep addr) acc)).2 := by
  induction l generalizing acc with
  | nil => exact hinv
  | cons x xs ih =>
    rw [List.foldl_cons]
    refine ih _ ?_
    unfold dealloc2MStep
    rcases acc with ⟨flag, s⟩
    cases flag
    · exact hinv
    · have h2 := dealloc4k_inv s (alignDown (addr + 4096 * x) 4096) hinv
      rcases h : deallocate_frame_4k s (alignDown (addr + 4096 * x) 4096) with ⟨res, s1⟩
      rw [h] at h2
      simp only
      rw [h]
      cases res <;> exact h2

theorem dealloc2m_snd (s : PhysicalMemoryManager) (addr : Nat) :
    (deallocate_frame_2m s addr).2 =
      ((List.range 512).foldl (dealloc2MStep addr) (true, s)).2 := by
  unfold deallocate_frame_2m
  generalize (List.range 512).foldl (dealloc2MStep addr) (true, s) = r
  rfl

theorem dealloc2m_inv (s : PhysicalMemoryManager) (addr : Nat)
    (hinv : CursorInv s) : CursorInv (deallocate_frame_2m s addr).2 := by
  have h3 := foldl_dealloc2MStep_inv addr (List.range 512) (true, s) hinv
  rw [← dealloc2m_snd] at h3
  exact h3

theorem foldl_dealloc1GStep_inv (addr : Nat) (l : List Nat) (acc : Bool × PhysicalMemoryManager)
    (hinv : CursorInv acc.2) : CursorInv ((l.foldl (dealloc1GStep addr) acc)).2 := by
  induction l generalizing acc with
  | nil => exact hinv
  | cons x xs ih =>
    rw [List.foldl_cons]
    refine ih _ ?_
    unfold dealloc1GStep
    rcases acc with ⟨flag, s⟩
    cases flag
    · exact hinv
    · have h2 := dealloc2m_inv s (alignDown (addr + 0x200000 * x) 0x200000) hinv
      rcases h : deallocate_frame_2m s (alignDown (addr + 0x200000 * x) 0x200000) with ⟨res, s1⟩
      rw [h] at h2
      simp only
      rw [h]
      cases res <;> exact h2

theorem dealloc1g_snd (s : PhysicalMemoryManager) (addr : Nat) :
    (deallocate_frame_1g s addr).2 =
      ((List.range 512).foldl (dealloc1GStep addr) (true, s)).2 := by
  unfold deallocate_frame_1g
  generalize (List.range 512).foldl (dealloc1GStep addr) (true, s) = r
  rfl

theorem dealloc1g_inv (s : PhysicalMemoryManager) (addr : Nat)
    (hinv : CursorInv s) : CursorInv (deallocate_frame_1g s addr).2 := by
  have h3 := foldl_dealloc1GStep_inv addr (List.range 512) (true, s) hinv
  rw [← dealloc1g_snd] at h3
  exact h3

theorem fillAllocated_length (frames : List FrameState) (start cnt : Nat) :
    (fillAllocated frames start cnt).length = frames.length := by
  induction cnt with
  | zero => rfl
  | succ c ih =>
    unfold fillAllocated
    rw [List.length_set, ih]

theorem fillAllocated_getElem (frames : List FrameState) (start cnt k : Nat) :
    (fillAllocated frames start cnt)[k]? =
      if start ≤ k ∧ k < start + cnt ∧ k < frames.length then some FrameState.Allocated
      else frames[k]? := by
  induction cnt with
  | zero =>
    have : ¬(start ≤ k ∧ k < start + 0 ∧ k < frames.length) := by omega
    rw [if_neg this]
    rfl
  | succ c ih =>
    unfold fillAllocated
    by_cases hk : k = start + c
    · subst hk
      by_cases hlen : start + c < frames.length
      · have hlen2 : start + c < (fillAllocated frames start c).length := by
          rw [fillAllocated_length]
          exact hlen
        rw [List.getElem?_set_self hlen2]
        have : start ≤ start + c ∧ start + c < start + (c + 1) ∧ start + c < frames.length := by
          omega
        rw [if_pos this]
      · have hlen2 : (fillAllocated frames start c).length ≤ start + c := by
          rw [fillAllocated_length]
          omega
        rw [List.set_eq_of_length_le hlen2, ih]
        have hc1 : ¬(start ≤ start + c ∧ start + c < start + c ∧ start + c < frames.length) := by
          omega
        have hc2 : ¬(start ≤ start + c ∧ start + c < start + (c + 1) ∧
            start + c < frames.length) := by
          omega
        rw [if_neg hc1, if_neg hc2]
    · rw [List.getElem?_set_ne (fun hc => hk hc.symm), ih]
      by_cases hc1 : start ≤ k ∧ k < start + c ∧ k < frames.length
      · rw [if_pos hc1]
        have : start ≤ k ∧ k < start + (c + 1) ∧ k < frames.length := by omega
        rw [if_pos this]
      · rw [if_neg hc1]
        have : ¬(start ≤ k ∧ k < start + (c + 1) ∧ k < frames.length) := by omega
        rw [if_neg this]

theorem stateAt_fillRegion (s : PhysicalMemoryManager) (r : Nat) (region : MemoryRegion)
    (hreg : s.regions[r]? = some region) (start cnt : Nat) (ff : Option (Nat × Nat))
    (l : Nat × Nat) :
    stateAt ⟨s.regions.set r { region with frames := fillAllocated region.frames start cnt },
        ff⟩ l =
      if l.1 = r ∧ start ≤ l.2 ∧ l.2 < start + cnt ∧ l.2 < region.frames.length
      then some FrameState.Allocated else stateAt s l := by
  have hrlen : r < s.regions.length := by
    by_contra hcon
    rw [List.getElem?_eq_none (by omega)] at hreg
    exact Option.noConfusion hreg
  unfold stateAt regState
  by_cases hr : l.1 = r
  · subst hr
    simp only [List.getElem?_set_self hrlen, Option.some_bind, hreg, fillAllocated_getElem]
    by_cases hcond : start ≤ l.2 ∧ l.2 < start + cnt ∧ l.2 < region.frames.length
    · simp [hcond, hreg]
    · simp [hcond, hreg]
  · rw [List.getElem?_set_ne (fun hc => hr hc.symm)]
    rw [if_neg (by intro hcon; exact hr hcon.1)]

theorem searchWinAux_ge {frames : List FrameState} {cnt stride : Nat} :
    ∀ {start iters st : Nat}, searchWinAux frames cnt stride start iters = some st →
      start ≤ st := by
  intro start iters
  induction iters generalizing start with
  | zero =>
    intro st h
    simp [searchWinAux] at h
  | succ it ih =>
    intro st h
    unfold searchWinAux at h
    by_cases hw : windowFree frames start cnt
    · rw [if_pos hw] at h
      injection h with h'
      omega
    · rw [if_neg hw] at h
      have := ih h
      omega

theorem searchWin_ge {frames : List FrameState} {cnt stride astart st : Nat}
    (h : searchWin frames cnt stride astart = some st) : astart ≤ st := by
  unfold searchWin at h
  exact searchWinAux_ge h

theorem alignedSearchStart_ge {region : MemoryRegion} {ss ssize a : Nat}
    (h : alignedSearchStart region ss ssize = some a) : ss ≤ a := by
  unfold alignedSearchStart at h
  match hf : region.frame_address ss with
  | none => rw [hf] at h; exact Option.noConfusion h
  | some addr =>
    rw [hf] at h
    injection h with h'
    subst h'
    split <;> omega

theorem searchRegionsAux_spec {regions : List MemoryRegion}
    {ffr ffi cnt stride ssize : Nat} :
    ∀ {idx rem r st : Nat},
      searchRegionsAux regions ffr ffi cnt stride ssize idx rem = some (r, st) →
      idx ≤ r ∧ (r = ffr → ffi ≤ st) := by
  intro idx rem
  induction rem generalizing idx with
  | zero =>
    intro r st h
    simp [searchRegionsAux] at h
  | succ rem ih =>
    intro r st h
    unfold searchRegionsAux at h
    match hreg : regions[idx]? with
    | none =>
      rw [hreg] at h
      exact Option.noConfusion h
    | some region =>
      rw [hreg] at h
      simp only at h
      by_cases hss : region.frames.length ≤ (if idx = ffr then ffi else 0)
      · rw [if_pos hss] at h
        obtain ⟨h1, h2⟩ := ih h
        exact ⟨by omega, h2⟩
      · rw [if_neg hss] at h
        match ha : alignedSearchStart region (if idx = ffr then ffi else 0) ssize with
        | none =>
          rw [ha] at h
          simp only at h
          obtain ⟨h1, h2⟩ := ih h
          exact ⟨by omega, h2⟩
        | some astart =>
          rw [ha] at h
          simp only at h
          match hw : searchWin region.frames cnt stride astart with
          | some st0 =>
            rw [hw] at h
            simp only at h
            injection h with h'
            injection h' with he1 he2
            subst he1
            subst he2
            refine ⟨le_refl _, ?_⟩
            intro hre
            subst hre
            have hge1 := alignedSearchStart_ge ha
            have hge2 := searchWin_ge hw
            rw [if_pos rfl] at hge1
            omega
          | none =>
            rw [hw] at h
            simp only at h
            obtain ⟨h1, h2⟩ := ih h
            exact ⟨by omega, h2⟩

theorem allocate_inv (s : PhysicalMemoryManager) (ssize n : Nat)
    (hinv : CursorInv s) : CursorInv (allocate_frames_impl s ssize n).2 := by
  unfold allocate_frames_impl
  split
  · exact hinv
  rename_i ffp ffr ffi hff
  dsimp only
  split
  · exact hinv
  rename_i hcnt
  split
  · exact hinv
  rename_i pr ridx st hsearch
  split
  · exact hinv
  rename_i region hreg
  have hspec := searchRegionsAux_spec hsearch
  have helim := cursorInv_elim_some hinv hff
  have hA : (ridx = ffr ∧ st ≤ ffi) →
      CursorInv (update_first_free
        { regions := s.regions.set ridx
            { base_addr := region.base_addr,
              frames := fillAllocated region.frames st (n * (ssize / 4096)) },
          first_free := s.first_free } ridx (st + n * (ssize / 4096))) := by
    rintro ⟨he, hle⟩
    subst he
    have hst : st = ffi := by
      have := hspec.2 rfl
      omega
    subst hst
    refine update_first_free_inv _ ridx (st + n * (ssize / 4096)) ?_
    intro l' hlt
    rw [stateAt_fillRegion s ridx region hreg st (n * (ssize / 4096)) s.first_free l']
    by_cases hin : l'.1 = ridx ∧ st ≤ l'.2 ∧ l'.2 < st + n * (ssize / 4096) ∧
        l'.2 < region.frames.length
    · rw [if_pos hin]
      simp
    · rw [if_neg hin]
      by_cases hfl : lexLt l' (ridx, st)
      · exact helim.2 l' hfl
      · have hcomp : l'.1 = ridx ∧ st ≤ l'.2 ∧ l'.2 < st + n * (ssize / 4096) := by
          simp only [lexLt] at hlt hfl
          omega
        have hlen : region.frames.length ≤ l'.2 := by
          rcases Nat.lt_or_ge l'.2 region.frames.length with hc | hc
          · exact absurd ⟨hcomp.1, hcomp.2.1, hcomp.2.2, hc⟩ hin
          · exact hc
        unfold stateAt regState
        rw [hcomp.1, hreg]
        simp [List.getElem?_eq_none hlen]
  have hB : ¬(ridx = ffr ∧ st ≤ ffi) →
      CursorInv { regions := s.regions.set ridx
                    { base_addr := region.base_addr,
                      frames := fillAllocated region.frames st (n * (ssize / 4096)) },
                  first_free := s.first_free } := by
    intro hnc
    refine cursorInv_intro _ ?_ ?_
    · intro l hl
      replace hl : s.first_free = some l := hl
      rw [hff] at hl
      have hlf : l = (ffr, ffi) := by
        injection hl with h'
        exact h'.symm
      subst hlf
      constructor
      · rw [stateAt_fillRegion s ridx region hreg st (n * (ssize / 4096)) s.first_free _]
        have hnot : ¬((ffr, ffi).1 = ridx ∧ st ≤ (ffr, ffi).2 ∧
            (ffr, ffi).2 < st + n * (ssize / 4096) ∧
            (ffr, ffi).2 < region.frames.length) := by
          rintro ⟨e1, e2, _, _⟩
          refine hnc ⟨e1.symm, ?_⟩
          simpa using e2
        rw [if_neg hnot]
        exact helim.1
      · intro l' hlt
        rw [stateAt_fillRegion s ridx region hreg st (n * (ssize / 4096)) s.first_free l']
        by_cases hin : l'.1 = ridx ∧ st ≤ l'.2 ∧ l'.2 < st + n * (ssize / 4096) ∧
            l'.2 < region.frames.length
        · rw [if_pos hin]
          simp
        · rw [if_neg hin]
          exact helim.2 l' hlt
    · intro hl
      replace hl : s.first_free = none := hl
      rw [hff] at hl
      exact Option.noConfusion hl
  split
  · split
    · rename_i hc
      exact hA hc
    · rename_i hc
      exact hB hc
  · split
    · rename_i hc
      exact hA hc
    · rename_i hc
      exact hB hc

end Phys

/-- C1: for every `Phys.PhysicalMemoryManager` state reachable from `new regions` by
any sequence of `allocate_frames` / `deallocate_frame` calls at any page size,
the first-free cursor, when present, points to a `Free` frame, and no `Free`
frame exists strictly earlier (lower region index, or same region with lower
frame index). -/
theorem C1_cursor_invariant (regions : List Phys.MemoryRegion)
    (s : Phys.PhysicalMemoryManager) (h : Phys.Reachable regions s) :
    ∀ l, s.first_free = some l → Phys.stateAt s l = some Phys.FrameState.Free ∧
      ∀ l', Phys.lexLt l' l → Phys.stateAt s l' ≠ some Phys.FrameState.Free := by
  have hinv : Phys.CursorInv s := by
    induction h with
    | init => exact Phys.new_cursor_inv regions
    | step _ hstep ih =>
      cases hstep with
      | alloc4k n => exact Phys.allocate_inv _ 4096 n ih
      | alloc2m n => exact Phys.allocate_inv _ 0x200000 n ih
      | alloc1g n => exact Phys.allocate_inv _ 0x40000000 n ih
      | dealloc4k a => exact Phys.dealloc4k_inv _ a ih
      | dealloc2m a => exact Phys.dealloc2m_inv _ a ih
      | dealloc1g a => exact Phys.dealloc1g_inv _ a ih
  exact hinv.1

theorem C1_cursor_invariant_witness :
    Phys.stateAt (Phys.new [⟨0, [Phys.FrameState.Allocated, Phys.FrameState.Free]⟩]) (0, 1) =
      some Phys.FrameState.Free :=
  (C1_cursor_invariant [⟨0, [Phys.FrameState.Allocated, Phys.FrameState.Free]⟩] _
    Phys.Reachable.init (0, 1) (by decide)).1

/-- C5: for every allocator state, every page size S in {4 KiB, 2 MiB, 1 GiB}
and every n, when `allocate_frames::<S>(n)` succeeds the start address of the
returned range is divisible by S. -/
theorem C5_alloc_alignment (s : Phys.PhysicalMemoryManager) (ssize n : Nat)
    (startAddr endAddr : Nat) (s' : Phys.PhysicalMemoryManager)
    (hS : ssize = 4096 ∨ ssize = 0x200000 ∨ ssize = 0x40000000)
    (h : Phys.allocate_frames_impl s ssize n = (some (startAddr, endAddr), s')) :
    startAddr % ssize = 0 := by
  clear hS
  unfold Phys.allocate_frames_impl at h
  split at h
  · simp only [Prod.mk.injEq] at h
    exact Option.noConfusion h.1
  rename_i ffp ffr ffi hff
  dsimp only at h
  split at h
  · simp only [Prod.mk.injEq] at h
    exact Option.noConfusion h.1
  rename_i hcnt
  split at h
  · simp only [Prod.mk.injEq] at h
    exact Option.noConfusion h.1
  rename_i pr ridx st hsearch
  split at h
  · simp only [Prod.mk.injEq] at h
    exact Option.noConfusion h.1
  rename_i region hreg
  split at h
  · rename_i hal
    simp only [Prod.mk.injEq, Option.some.injEq] at h
    rw [← h.1.1]
    exact hal.1
  · simp only [Prod.mk.injEq] at h
    exact Option.noConfusion h.1

theorem C5_alloc_alignment_witness : (0 : Nat) % 4096 = 0 :=
  C5_alloc_alignment (Phys.new [⟨0, [Phys.FrameState.Free]⟩]) 4096 1 0 0
    (Phys.allocate_frames_impl (Phys.new [⟨0, [Phys.FrameState.Free]⟩]) 4096 1).2
    (Or.inl rfl) (by decide)

namespace Phys

theorem frame_index_congr (r x : MemoryRegion) (hb : x.base_addr = r.base_addr)
    (hl : x.frames.length = r.frames.length) (addr : Nat) :
    x.frame_index addr = r.frame_index addr := by
  unfold MemoryRegion.frame_index
  rw [hb, hl]

theorem findFrameLocationAux_set :
    ∀ (regions : List MemoryRegion) (r : Nat) (x : MemoryRegion),
      (∀ region, regions[r]? = some region →
        x.base_addr = region.base_addr ∧ x.frames.length = region.frames.length) →
      ∀ (d addr : Nat),
        findFrameLocationAux (regions.set r x) d addr = findFrameLocationAux regions d addr
  | [], _, _, _, _, _ => rfl
  | y :: rest, 0, x, hx, d, addr => by
    obtain ⟨hb, hl⟩ := hx y (by simp)
    show findFrameLocationAux (x :: rest) d addr = findFrameLocationAux (y :: rest) d addr
    unfold findFrameLocationAux
    rw [frame_index_congr y x hb hl addr]
  | y :: rest, r + 1, x, hx, d, addr => by
    show findFrameLocationAux (y :: rest.set r x) d addr = _
    unfold findFrameLocationAux
    rw [findFrameLocationAux_set rest r x (fun region h => hx region (by simpa using h))
      (d + 1) addr]

theorem find_frame_location_set (regions : List MemoryRegion) (r : Nat) (x : MemoryRegion)
    (hx : ∀ region, regions[r]? = some region →
      x.base_addr = region.base_addr ∧ x.frames.length = region.frames.length)
    (addr : Nat) :
    find_frame_location (regions.set r x) addr = find_frame_location regions addr :=
  findFrameLocationAux_set regions r x hx 0 addr

theorem frameAllocated_dealloc4k_false (s : PhysicalMemoryManager) (a b : Nat)
    (h : frameAllocated s a = false) :
    frameAllocated (deallocate_frame_4k s b).2 a = false := by
  rcases dealloc4k_cases s b with heq | ⟨r, i, region, hloc, hreg, hi, hall, heq⟩
  · rw [heq]; exact h
  rw [heq]
  have hrlen : r < s.regions.length := by
    by_contra hcon
    rw [List.getElem?_eq_none (by omega)] at hreg
    exact Option.noConfusion hreg
  unfold frameAllocated at h ⊢
  dsimp only
  rw [find_frame_location_set s.regions r
    { region with frames := region.frames.set i FrameState.Free }
    (by
      intro region' hreg'
      rw [hreg] at hreg'
      injection hreg' with hr'
      subst hr'
      exact ⟨rfl, by simp⟩) a]
  cases hfl : find_frame_location s.regions a with
  | none => rfl
  | some ri =>
    obtain ⟨r', i'⟩ := ri
    rw [hfl] at h
    simp only at h
    dsimp only
    by_cases hrr : r' = r
    · subst hrr
      rw [List.getElem?_set_self hrlen]
      dsimp only
      rw [hreg] at h
      simp only at h
      by_cases hii : i' = i
      · subst hii
        rw [decide_eq_false_iff_not]
        rw [List.getD_eq_getElem?_getD, List.getElem?_set_self hi]
        simp
      · have hgd : (region.frames.set i FrameState.Free).getD i' FrameState.Unusable =
            region.frames.getD i' FrameState.Unusable := by
          rw [List.getD_eq_getElem?_getD, List.getD_eq_getElem?_getD,
            List.getElem?_set_ne (fun hc => hii hc.symm)]
        rw [hgd]
        exact h
    · rw [List.getElem?_set_ne (fun hc => hrr hc.symm)]
      exact h

theorem dealloc4k_none_of_false (s : PhysicalMemoryManager) (a : Nat)
    (h : frameAllocated s a = false) : (deallocate_frame_4k s a).1 = none := by
  unfold frameAllocated at h
  unfold deallocate_frame_4k
  cases hfl : find_frame_location s.regions a with
  | none => rfl
  | some ri =>
    obtain ⟨r, i⟩ := ri
    rw [hfl] at h
    simp only at h
    dsimp only
    cases hreg : s.regions[r]? with
    | none => rfl
    | some region =>
      rw [hreg] at h
      simp only at h
      dsimp only
      rw [if_neg (of_decide_eq_false h)]

end Phys

namespace Phys

theorem degrade_refl (s : PhysicalMemoryManager) : Degrade s s := fun _ => Or.inl rfl

theorem degrade_trans {s0 s1 s2 : PhysicalMemoryManager}
    (h1 : Degrade s0 s1) (h2 : Degrade s1 s2) : Degrade s0 s2 := by
  intro l
  rcases h2 l with h2l | ⟨h2a, h2f⟩
  · rcases h1 l with h1l | ⟨h1a, h1f⟩
    · exact Or.inl (h2l.trans h1l)
    · exact Or.inr ⟨h1a, h2l.trans h1f⟩
  · rcases h1 l with h1l | ⟨h1a, h1f⟩
    · exact Or.inr ⟨h1l ▸ h2a, h2f⟩
    · exact absurd (h1f.symm.trans h2a) (by decide)

theorem dealloc4k_degrade (s : PhysicalMemoryManager) (a : Nat) :
    Degrade s (deallocate_frame_4k s a).2 := by
  rcases dealloc4k_cases s a with heq | ⟨r, i, region, hloc, hreg, hi, hall, heq⟩
  · rw [heq]; exact degrade_refl s
  rw [heq]
  intro l
  rw [stateAt_set s r i region hreg hi FrameState.Free _ l]
  by_cases hl : l.1 = r ∧ l.2 = i
  · rw [if_pos hl]
    refine Or.inr ⟨?_, rfl⟩
    obtain ⟨h1, h2⟩ := hl
    have hv : region.frames[i] = FrameState.Allocated := by
      have hg := hall
      rw [List.getD_eq_getElem?_getD, List.getElem?_eq_getElem hi] at hg
      simpa using hg
    unfold stateAt regState
    rw [h1, h2, hreg]
    simp only [Option.some_bind]
    rw [List.getElem?_eq_getElem hi, hv]
  · rw [if_neg hl]
    exact Or.inl rfl

theorem dealloc2MStep_snd (addr : Nat) (s : PhysicalMemoryManager) (j : Nat) :
    (dealloc2MStep addr (true, s) j).2 =
      (deallocate_frame_4k s (alignDown (addr + 4096 * j) 4096)).2 := by
  unfold dealloc2MStep
  dsimp only
  rcases hd : deallocate_frame_4k s (alignDown (addr + 4096 * j) 4096) with ⟨o, s1⟩
  cases o <;> rfl

theorem fold2m_fix (addr : Nat) :
    ∀ (l : List Nat) (s : PhysicalMemoryManager),
      l.foldl (dealloc2MStep addr) (false, s) = (false, s)
  | [], _ => rfl
  | j :: rest, s => by
    rw [List.foldl_cons]
    exact fold2m_fix addr rest s

theorem fold2m_of_flag_false (addr : Nat) (l : List Nat) (acc : Bool × PhysicalMemoryManager)
    (h : acc.1 = false) : l.foldl (dealloc2MStep addr) acc = acc := by
  obtain ⟨flag, s⟩ := acc
  cases flag
  · exact fold2m_fix addr l s
  · exact Bool.noConfusion h

theorem fold2m_degrade (addr : Nat) :
    ∀ (l : List Nat) (acc : Bool × PhysicalMemoryManager) (s0 : PhysicalMemoryManager),
      Degrade s0 acc.2 → Degrade s0 (l.foldl (dealloc2MStep addr) acc).2
  | [], _, _, h => h
  | j :: rest, acc, s0, h => by
    obtain ⟨flag, s⟩ := acc
    rw [List.foldl_cons]
    refine fold2m_degrade addr rest _ s0 ?_
    cases flag
    · exact h
    · rw [dealloc2MStep_snd addr s j]
      exact degrade_trans h (dealloc4k_degrade s _)

theorem fold2m_frameAllocated_false (addr : Nat) :
    ∀ (l : List Nat) (acc : Bool × PhysicalMemoryManager) (a : Nat),
      frameAllocated acc.2 a = false →
      frameAllocated (l.foldl (dealloc2MStep addr) acc).2 a = false
  | [], _, _, h => h
  | j :: rest, acc, a, h => by
    obtain ⟨flag, s⟩ := acc
    rw [List.foldl_cons]
    refine fold2m_frameAllocated_false addr rest _ a ?_
    cases flag
    · exact h
    · rw [dealloc2MStep_snd addr s j]
      exact frameAllocated_dealloc4k_false s a _ h

theorem fold2m_flag_false (addr : Nat) :
    ∀ (l : List Nat) (acc : Bool × PhysicalMemoryManager) (i : Nat), i ∈ l →
      frameAllocated acc.2 (alignDown (addr + 4096 * i) 4096) = false →
      (l.foldl (dealloc2MStep addr) acc).1 = false
  | [], _, i, hmem, _ => absurd hmem (List.not_mem_nil i)
  | j :: rest, acc, i, hmem, hfa => by
    obtain ⟨flag, s⟩ := acc
    rw [List.foldl_cons]
    cases flag with
    | false =>
      rw [fold2m_of_flag_false addr rest (dealloc2MStep addr (false, s) j) rfl]
      rfl
    | true =>
      rcases List.mem_cons.mp hmem with heq | hrest
      · subst heq
        have h1 : (dealloc2MStep addr (true, s) i).1 = false := by
          have hnone := dealloc4k_none_of_false s _ hfa
          unfold dealloc2MStep
          dsimp only
          rcases hd : deallocate_frame_4k s (alignDown (addr + 4096 * i) 4096) with ⟨o, s1⟩
          rw [hd] at hnone
          cases o
          · rfl
          · exact Option.noConfusion hnone
        rw [fold2m_of_flag_false addr rest _ h1]
        exact h1
      · refine fold2m_flag_false addr rest _ i hrest ?_
        rw [dealloc2MStep_snd addr s j]
        exact frameAllocated_dealloc4k_false s _ _ hfa

theorem dealloc2m_fst (s : PhysicalMemoryManager) (addr : Nat) :
    (deallocate_frame_2m s addr).1 =
      (if ((List.range 512).foldl (dealloc2MStep addr) (true, s)).1 then some addr
       else none) := by
  unfold deallocate_frame_2m
  generalize (List.range 512).foldl (dealloc2MStep addr) (true, s) = r
  rfl

theorem dealloc2m_none_of_sub_false (s : PhysicalMemoryManager) (addr : Nat)
    (h : ∃ i, i < 512 ∧ frameAllocated s (alignDown (addr + 4096 * i) 4096) = false) :
    (deallocate_frame_2m s addr).1 = none := by
  obtain ⟨i, hi, hfa⟩ := h
  rw [dealloc2m_fst,
    fold2m_flag_false addr (List.range 512) (true, s) i (List.mem_range.mpr hi) hfa]
  rfl

theorem dealloc2m_degrade (s : PhysicalMemoryManager) (addr : Nat) :
    Degrade s (deallocate_frame_2m s addr).2 := by
  rw [dealloc2m_snd]
  exact fold2m_degrade addr (List.range 512) (true, s) s (degrade_refl s)

theorem dealloc2m_frameAllocated_false (s : PhysicalMemoryManager) (b a : Nat)
    (h : frameAllocated s a = false) :
    frameAllocated (deallocate_frame_2m s b).2 a = false := by
  rw [dealloc2m_snd]
  exact fold2m_frameAllocated_false b (List.range 512) (true, s) a h

end Phys

namespace Phys

theorem dealloc1GStep_snd (addr : Nat) (s : PhysicalMemoryManager) (j : Nat) :
    (dealloc1GStep addr (true, s) j).2 =
      (deallocate_frame_2m s (alignDown (addr + 0x200000 * j) 0x200000)).2 := by
  unfold dealloc1GStep
  dsimp only
  rcases hd : deallocate_frame_2m s (alignDown (addr + 0x200000 * j) 0x200000) with ⟨o, s1⟩
  cases o <;> rfl

theorem fold1g_fix (addr : Nat) :
    ∀ (l : List Nat) (s : PhysicalMemoryManager),
      l.foldl (dealloc1GStep addr) (false, s) = (false, s)
  | [], _ => rfl
  | j :: rest, s => by
    rw [List.foldl_cons]
    exact fold1g_fix addr rest s

theorem fold1g_of_flag_false (addr : Nat) (l : List Nat) (acc : Bool × PhysicalMemoryManager)
    (h : acc.1 = false) : l.foldl (dealloc1GStep addr) acc = acc := by
  obtain ⟨flag, s⟩ := acc
  cases flag
  · exact fold1g_fix addr l s
  · exact Bool.noConfusion h

theorem fold1g_degrade (addr : Nat) :
    ∀ (l : List Nat) (acc : Bool × PhysicalMemoryManager) (s0 : PhysicalMemoryManager),
      Degrade s0 acc.2 → Degrade s0 (l.foldl (dealloc1GStep addr) acc).2
  | [], _, _, h => h
  | j :: rest, acc, s0, h => by
    obtain ⟨flag, s⟩ := acc
    rw [List.foldl_cons]
    refine fold1g_degrade addr rest _ s0 ?_
    cases flag
    · exact h
    · rw [dealloc1GStep_snd addr s j]
      exact degrade_trans h (dealloc2m_degrade s _)

theorem fold1g_flag_false (addr : Nat) :
    ∀ (l : List Nat) (acc : Bool × PhysicalMemoryManager) (i : Nat), i ∈ l →
      (∃ j, j < 512 ∧ frameAllocated acc.2
        (alignDown (alignDown (addr + 0x200000 * i) 0x200000 + 4096 * j) 4096) = false) →
      (l.foldl (dealloc1GStep addr) acc).1 = false
  | [], _, i, hmem, _ => absurd hmem (List.not_mem_nil i)
  | j :: rest, acc, i, hmem, hfa => by
    obtain ⟨flag, s⟩ := acc
    rw [List.foldl_cons]
    cases flag with
    | false =>
      rw [fold1g_of_flag_false addr rest (dealloc1GStep addr (false, s) j) rfl]
      rfl
    | true =>
      rcases List.mem_cons.mp hmem with heq | hrest
      · subst heq
        have h1 : (dealloc1GStep addr (true, s) i).1 = false := by
          have hnone := dealloc2m_none_of_sub_false s
            (alignDown (addr + 0x200000 * i) 0x200000) hfa
          unfold dealloc1GStep
          dsimp only
          rcases hd : deallocate_frame_2m s (alignDown (addr + 0x200000 * i) 0x200000)
            with ⟨o, s1⟩
          rw [hd] at hnone
          cases o
          · rfl
          · exact Option.noConfusion hnone
        rw [fold1g_of_flag_false addr rest _ h1]
        exact h1
      · refine fold1g_flag_false addr rest _ i hrest ?_
        obtain ⟨k, hk, hfk⟩ := hfa
        refine ⟨k, hk, ?_⟩
        rw [dealloc1GStep_snd addr s j]
        exact dealloc2m_frameAllocated_false s _ _ hfk

theorem dealloc1g_fst (s : PhysicalMemoryManager) (addr : Nat) :
    (deallocate_frame_1g s addr).1 =
      (if ((List.range 512).foldl (dealloc1GStep addr) (true, s)).1 then some addr
       else none) := by
  unfold deallocate_frame_1g
  generalize (List.range 512).foldl (dealloc1GStep addr) (true, s) = r
  rfl

theorem dealloc1g_none_of_sub_false (s : PhysicalMemoryManager) (addr : Nat)
    (h : ∃ i j, i < 512 ∧ j < 512 ∧ frameAllocated s
      (alignDown (alignDown (addr + 0x200000 * i) 0x200000 + 4096 * j) 4096) = false) :
    (deallocate_frame_1g s addr).1 = none := by
  obtain ⟨i, k, hi, hk, hfa⟩ := h
  rw [dealloc1g_fst,
    fold1g_flag_false addr (List.range 512) (true, s) i (List.mem_range.mpr hi)
      ⟨k, hk, hfa⟩]
  rfl

theorem dealloc1g_degrade (s : PhysicalMemoryManager) (addr : Nat) :
    Degrade s (deallocate_frame_1g s addr).2 := by
  rw [dealloc1g_snd]
  exact fold1g_degrade addr (List.range 512) (true, s) s (degrade_refl s)

end Phys

/-- C6 (amended): for every allocator state and every 2 MiB or 1 GiB frame, if
some 4 KiB sub-frame is not in `Allocated` state then `deallocate_frame`
returns `None`; but the call is not atomic: it may change frame states, only
ever by freeing frames that were `Allocated` (the sub-frames already processed
before the failing one). The original claim's "marks no frame Free" is refuted
by `C6_counterexample_partial_free`. -/
theorem C6_dealloc_cascade_failure (s : Phys.PhysicalMemoryManager) (addr : Nat) :
    ((∃ i, i < 512 ∧
        Phys.frameAllocated s (Phys.alignDown (addr + 4096 * i) 4096) = false) →
      (Phys.deallocate_frame_2m s addr).1 = none ∧
        Phys.Degrade s (Phys.deallocate_frame_2m s addr).2) ∧
    ((∃ i j, i < 512 ∧ j < 512 ∧
        Phys.frameAllocated s
          (Phys.alignDown
            (Phys.alignDown (addr + 0x200000 * i) 0x200000 + 4096 * j) 4096) = false) →
      (Phys.deallocate_frame_1g s addr).1 = none ∧
        Phys.Degrade s (Phys.deallocate_frame_1g s addr).2) :=
  ⟨fun h => ⟨Phys.dealloc2m_none_of_sub_false s addr h, Phys.dealloc2m_degrade s addr⟩,
   fun h => ⟨Phys.dealloc1g_none_of_sub_false s addr h, Phys.dealloc1g_degrade s addr⟩⟩

theorem C6_dealloc_cascade_failure_witness :
    (Phys.deallocate_frame_2m
      ⟨[⟨0, [Phys.FrameState.Allocated, Phys.FrameState.Free]⟩], some (0, 1)⟩ 0).1 =
        none ∧
    Phys.Degrade
      ⟨[⟨0, [Phys.FrameState.Allocated, Phys.FrameState.Free]⟩], some (0, 1)⟩
      (Phys.deallocate_frame_2m
        ⟨[⟨0, [Phys.FrameState.Allocated, Phys.FrameState.Free]⟩], some (0, 1)⟩ 0).2 :=
  (C6_dealloc_cascade_failure
    ⟨[⟨0, [Phys.FrameState.Allocated, Phys.FrameState.Free]⟩], some (0, 1)⟩ 0).1
    ⟨1, by decide, by decide⟩

/-- C6 counterexample: in the state with one region holding frames
`[Allocated, Free]`, the 2 MiB deallocation at address 0 fails (sub-frame 1 is
not `Allocated`), yet sub-frame 0, freed before the failure was noticed, stays
`Free`: the failing call is not atomic, refuting "the call marks no frame
Free". -/
theorem C6_counterexample_partial_free :
    (Phys.deallocate_frame_2m
      ⟨[⟨0, [Phys.FrameState.Allocated, Phys.FrameState.Free]⟩], some (0, 1)⟩ 0).1 =
        none ∧
    Phys.stateAt
      ⟨[⟨0, [Phys.FrameState.Allocated, Phys.FrameState.Free]⟩], some (0, 1)⟩ (0, 0) =
        some Phys.FrameState.Allocated ∧
    Phys.stateAt
      (Phys.deallocate_frame_2m
        ⟨[⟨0, [Phys.FrameState.Allocated, Phys.FrameState.Free]⟩], some (0, 1)⟩ 0).2
      (0, 0) = some Phys.FrameState.Free := by
  decide
